import Mathlib

/-!
The validation barrier of `routing/validation_barrier.go`.

A shallow embedding of `ValidationBarrier` and its five operations
(`NewValidationBarrier`, `InitJobDependancies`, `CompleteJob`,
`WaitForDependants`, `SignalDependants`), followed by a small-step model of
goroutines calling them concurrently, and the properties proved about both.

Modelling conventions.

* A Go map is a function from keys to `Option`; `delete` and assignment are
  `Function.update`.
* The channels created by `make(chan struct{})` live in a heap: channel `c` is
  allocated iff `c < made`, and `closed c` tells whether it has been closed.
* The buffered channel `validationSemaphore` carries no data, so it is its
  capacity `semCap` and the number of buffered tokens `validationSemaphore`.
* A `select` is a function of the case that is taken; it yields `none` when
  that case is not ready. When both cases are ready Go picks either one.
* `close` of an already closed channel is a runtime panic: `none`.
-/

namespace Routing

/-- The key type `lnwire.ShortChannelID`, under any injective numbering. -/
abbrev ShortChannelID := Nat

/-- The key type `Vertex`, under any injective numbering. -/
abbrev Vertex := Nat

/-- The values behind `*btcec.PublicKey`. -/
abbrev PubKey := Nat

/-- The address of a channel created by `make(chan struct{})`. -/
abbrev Signal := Nat

/-- The two key helpers the barrier calls and whose code lives in other
packages: `lnwire.NewShortChanIDFromInt` and `NewVertex`. They are taken as
parameters, so every theorem holds whatever they compute. -/
structure Keys where
  NewShortChanIDFromInt : Nat → ShortChannelID
  NewVertex : PubKey → Vertex

/-- The dynamic type of a job together with the fields the barrier reads.
`Other` is any value whose type none of the type switches names. -/
inductive Job where
  | ChannelAnnouncement (shortChannelID : ShortChannelID) (nodeID1 nodeID2 : PubKey)
  | ChannelEdgeInfo (channelID : Nat) (nodeKey1 nodeKey2 : PubKey)
  | ChannelEdgePolicy (channelID : Nat)
  | ChannelUpdate (shortChannelID : ShortChannelID)
  | NodeAnnouncement (nodeID : PubKey)
  | LightningNode (pubKey : PubKey)
  | AnnounceSignatures
  | Other
  deriving DecidableEq, Repr

/-- The struct `ValidationBarrier`, with the heap of the signal channels it
has made (`made`, `closed`), the state of the `quit` channel (`true` once it
is closed) and the state of the embedded mutex. -/
structure ValidationBarrier where
  semCap : Nat
  validationSemaphore : Nat
  chanAnnFinSignal : ShortChannelID → Option Signal
  chanEdgeDependancies : ShortChannelID → Option Signal
  nodeAnnDependancies : Vertex → Option Signal
  quit : Bool
  locked : Bool
  made : Nat
  closed : Signal → Bool

/-- The constructor `NewValidationBarrier` (lines 48-66): three empty maps and
a semaphore of capacity `numActiveReqs` filled with `numActiveReqs` tokens.
`quitChan` is the state of the channel that is passed in. -/
def NewValidationBarrier (numActiveReqs : Nat) (quitChan : Bool) : ValidationBarrier where
  semCap := numActiveReqs
  validationSemaphore := numActiveReqs
  chanAnnFinSignal := fun _ => none
  chanEdgeDependancies := fun _ => none
  nodeAnnDependancies := fun _ => none
  quit := quitChan
  locked := false
  made := 0
  closed := fun _ => false

/-- The select of `InitJobDependancies` (lines 73-76): receive a token from
the semaphore, or observe the closed `quit` channel. -/
def initSelect (viaQuit : Bool) (v : ValidationBarrier) : Option ValidationBarrier :=
  if viaQuit then
    if v.quit then some v else none
  else
    if 0 < v.validationSemaphore then
      some { v with validationSemaphore := v.validationSemaphore - 1 }
    else none

/-- The type switch of `InitJobDependancies` (lines 83-136), which runs with
the mutex held. -/
def initSwitch (K : Keys) (job : Job) (v : ValidationBarrier) : ValidationBarrier :=
  match job with
  | .ChannelAnnouncement shortChannelID nodeID1 nodeID2 =>
    match v.chanAnnFinSignal shortChannelID with
    | some _ => v
    | none =>
      let annFinCond := v.made
      { v with
        made := v.made + 1
        closed := Function.update v.closed annFinCond false
        chanAnnFinSignal :=
          Function.update v.chanAnnFinSignal shortChannelID (some annFinCond)
        chanEdgeDependancies :=
          Function.update v.chanEdgeDependancies shortChannelID (some annFinCond)
        nodeAnnDependancies :=
          Function.update
            (Function.update v.nodeAnnDependancies (K.NewVertex nodeID1) (some annFinCond))
            (K.NewVertex nodeID2) (some annFinCond) }
  | .ChannelEdgeInfo channelID nodeKey1 nodeKey2 =>
    let shortID := K.NewShortChanIDFromInt channelID
    match v.chanAnnFinSignal shortID with
    | some _ => v
    | none =>
      let annFinCond := v.made
      { v with
        made := v.made + 1
        closed := Function.update v.closed annFinCond false
        chanAnnFinSignal := Function.update v.chanAnnFinSignal shortID (some annFinCond)
        chanEdgeDependancies :=
          Function.update v.chanEdgeDependancies shortID (some annFinCond)
        nodeAnnDependancies :=
          Function.update
            (Function.update v.nodeAnnDependancies (K.NewVertex nodeKey1) (some annFinCond))
            (K.NewVertex nodeKey2) (some annFinCond) }
  | .ChannelEdgePolicy _ => v
  | .ChannelUpdate _ => v
  | .NodeAnnouncement _ => v
  | .LightningNode _ => v
  | .AnnounceSignatures => v
  | .Other => v

/-- The call `InitJobDependancies` run without interruption: the select, then
the type switch under the mutex. The result is `none` when the chosen case of
the select is not ready, that is, when the call is still blocked. -/
def InitJobDependancies (K : Keys) (viaQuit : Bool) (job : Job) (v : ValidationBarrier) :
    Option ValidationBarrier :=
  (initSelect viaQuit v).map (initSwitch K job)

/-- The call `CompleteJob` (lines 143-148): send a token to the semaphore, or
observe the closed `quit` channel. The send is ready when the buffer has
room. -/
def CompleteJob (viaQuit : Bool) (v : ValidationBarrier) : Option ValidationBarrier :=
  if viaQuit then
    if v.quit then some v else none
  else
    if v.validationSemaphore < v.semCap then
      some { v with validationSemaphore := v.validationSemaphore + 1 }
    else none

/-- The type switch of `WaitForDependants` (lines 162-190): the pair
`(signal, ok)` it leaves behind, `none` standing for `ok = false` and for the
three cases that return at once. -/
def waitSwitch (K : Keys) (job : Job) (v : ValidationBarrier) : Option Signal :=
  match job with
  | .ChannelEdgePolicy channelID => v.chanEdgeDependancies (K.NewShortChanIDFromInt channelID)
  | .LightningNode pubKey => v.nodeAnnDependancies (K.NewVertex pubKey)
  | .ChannelUpdate shortChannelID => v.chanEdgeDependancies shortChannelID
  | .NodeAnnouncement nodeID => v.nodeAnnDependancies (K.NewVertex nodeID)
  | .AnnounceSignatures => none
  | .ChannelEdgeInfo _ _ _ => none
  | .ChannelAnnouncement _ _ _ => none
  | .Other => none

/-- The select of `WaitForDependants` (lines 196-200) is ready when `quit` is
closed or when `signal` is closed. -/
def waitSelect (signal : Signal) (v : ValidationBarrier) : Bool :=
  v.quit || v.closed signal

/-- The call `WaitForDependants` run without interruption: `none` when the
call is blocked at its select, the unchanged barrier when it returns. -/
def WaitForDependants (K : Keys) (job : Job) (v : ValidationBarrier) :
    Option ValidationBarrier :=
  match waitSwitch K job v with
  | none => some v
  | some signal => if waitSelect signal v then some v else none

/-- The builtin `close`: closing a closed channel panics. -/
def closeChan (c : Signal) (v : ValidationBarrier) : Option ValidationBarrier :=
  if v.closed c then none else some { v with closed := Function.update v.closed c true }

/-- The call `SignalDependants` (lines 207-248), which runs with the mutex
held and never blocks; `none` is the panic of a double `close`. -/
def SignalDependants (K : Keys) (job : Job) (v : ValidationBarrier) :
    Option ValidationBarrier :=
  match job with
  | .ChannelEdgeInfo channelID _ _ =>
    let shortID := K.NewShortChanIDFromInt channelID
    match v.chanAnnFinSignal shortID with
    | some finSignal =>
      (closeChan finSignal v).map fun w =>
        { w with chanAnnFinSignal := Function.update w.chanAnnFinSignal shortID none }
    | none => some v
  | .ChannelAnnouncement shortChannelID _ _ =>
    (match v.chanAnnFinSignal shortChannelID with
      | some finSignal =>
        (closeChan finSignal v).map fun (w : ValidationBarrier) =>
          { w with chanAnnFinSignal := Function.update w.chanAnnFinSignal shortChannelID none }
      | none => some v).map fun (w : ValidationBarrier) =>
      { w with chanEdgeDependancies := Function.update w.chanEdgeDependancies shortChannelID none }
  | .LightningNode pubKey =>
    some { v with
      nodeAnnDependancies := Function.update v.nodeAnnDependancies (K.NewVertex pubKey) none }
  | .NodeAnnouncement nodeID =>
    some { v with
      nodeAnnDependancies := Function.update v.nodeAnnDependancies (K.NewVertex nodeID) none }
  | .ChannelUpdate shortChannelID =>
    some { v with
      chanEdgeDependancies := Function.update v.chanEdgeDependancies shortChannelID none }
  | .ChannelEdgePolicy channelID =>
    some { v with
      chanEdgeDependancies :=
        Function.update v.chanEdgeDependancies (K.NewShortChanIDFromInt channelID) none }
  | .AnnounceSignatures => some v
  | .Other => some v

/-! ## Goroutines -/

/-- The method `Lock` of the embedded mutex: blocked (`none`) while it is held. -/
def Lock (v : ValidationBarrier) : Option ValidationBarrier :=
  if v.locked then none else some { v with locked := true }

/-- The method `Unlock` of the embedded mutex. -/
def Unlock (v : ValidationBarrier) : ValidationBarrier :=
  { v with locked := false }

/-- A call of one of the four methods. -/
inductive Call where
  | InitJobDependancies (job : Job)
  | WaitForDependants (job : Job)
  | SignalDependants (job : Job)
  | CompleteJob
  deriving DecidableEq, Repr

/-- Where a goroutine stands: between two calls (`idle`), or inside a call, in
front of the statement named: `initLock` is line 78 (the select is behind it),
`initSwitch` line 83, `waitSwitch` line 162, `waitSelect` line 196 and
`signalSwitch` line 211. At the three `Switch` points it holds the mutex. -/
inductive Pc where
  | idle
  | initLock (job : Job)
  | initSwitch (job : Job)
  | waitSwitch (job : Job)
  | waitSelect (signal : Signal)
  | signalSwitch (job : Job)
  deriving DecidableEq, Repr

/-- A goroutine: the calls it has still to make, and where it stands. -/
structure Goroutine where
  todo : List Call
  pc : Pc
  deriving DecidableEq, Repr

/-- One step of a goroutine. An idle goroutine enters its next call and takes
that call's first step (the select of `InitJobDependancies` or `CompleteJob`,
the `Lock` of the other two); a goroutine inside a call runs up to its next
blocking point. The result is `none` when the goroutine is blocked, has
nothing left to do, or panics. -/
def stepGoroutine (K : Keys) (viaQuit : Bool) (v : ValidationBarrier) (g : Goroutine) :
    Option (ValidationBarrier × Goroutine) :=
  match g.pc with
  | .idle =>
    match g.todo with
    | [] => none
    | .InitJobDependancies job :: rest =>
      (initSelect viaQuit v).map fun w => (w, ⟨rest, .initLock job⟩)
    | .CompleteJob :: rest =>
      (CompleteJob viaQuit v).map fun w => (w, ⟨rest, .idle⟩)
    | .WaitForDependants job :: rest =>
      (Lock v).map fun w => (w, ⟨rest, .waitSwitch job⟩)
    | .SignalDependants job :: rest =>
      (Lock v).map fun w => (w, ⟨rest, .signalSwitch job⟩)
  | .initLock job => (Lock v).map fun w => (w, { g with pc := .initSwitch job })
  | .initSwitch job => some (Unlock (initSwitch K job v), { g with pc := .idle })
  | .waitSwitch job =>
    match waitSwitch K job v with
    | some signal => some (Unlock v, { g with pc := .waitSelect signal })
    | none => some (Unlock v, { g with pc := .idle })
  | .waitSelect signal =>
    if waitSelect signal v then some (v, { g with pc := .idle }) else none
  | .signalSwitch job =>
    (SignalDependants K job v).map fun w => (Unlock w, { g with pc := .idle })

/-- The barrier and the goroutines that use it. -/
structure System where
  v : ValidationBarrier
  goroutines : List Goroutine

/-- What can happen next: goroutine `g` takes a step (`viaQuit` names the case
it takes at a select); or, the semaphore being unbuffered (capacity 0), a
`CompleteJob` and an `InitJobDependancies` meet and the token passes from one
to the other; or the owner of `quit` closes it. -/
inductive Action where
  | run (g : Nat) (viaQuit : Bool)
  | handoff (sender receiver : Nat)
  | closeQuit
  deriving DecidableEq, Repr

/-- One step of the system; `none` when the action is not possible. -/
def step (K : Keys) (s : System) : Action → Option System
  | .run i viaQuit =>
    match s.goroutines[i]? with
    | none => none
    | some g =>
      (stepGoroutine K viaQuit s.v g).map fun r => ⟨r.1, s.goroutines.set i r.2⟩
  | .handoff i j =>
    if s.v.semCap = 0 ∧ i ≠ j then
      match s.goroutines[i]?, s.goroutines[j]? with
      | some ⟨.CompleteJob :: rest, .idle⟩,
        some ⟨.InitJobDependancies job :: rest2, .idle⟩ =>
        some ⟨s.v, (s.goroutines.set i ⟨rest, .idle⟩).set j ⟨rest2, .initLock job⟩⟩
      | _, _ => none
    else none
  | .closeQuit =>
    if s.v.quit then none else some { s with v := { s.v with quit := true } }

/-- The system after a sequence of actions; `none` when one is not possible. -/
def run (K : Keys) (s : System) : List Action → Option System
  | [] => some s
  | a :: rest => (step K s a).bind fun t => run K t rest

/-- The states of the system that executions from a fresh barrier can reach,
whatever the goroutines and the calls they make. -/
def Reachable (K : Keys) (numActiveReqs : Nat) (s : System) : Prop :=
  ∃ (quitChan : Bool) (gs : List Goroutine) (acts : List Action),
    (∀ g ∈ gs, g.pc = .idle) ∧
    run K ⟨NewValidationBarrier numActiveReqs quitChan, gs⟩ acts = some s

/-! ## Well-formed states -/

/-- Every signal stored in one of the three maps is a channel that has been
made: the maps hold no dangling address. -/
def Allocated (v : ValidationBarrier) : Prop :=
  (∀ k s, v.chanAnnFinSignal k = some s → s < v.made) ∧
  (∀ k s, v.chanEdgeDependancies k = some s → s < v.made) ∧
  (∀ x s, v.nodeAnnDependancies x = some s → s < v.made)

/-- Every signal stored in `chanAnnFinSignal` is still open, and is stored
there under one key only. -/
def PendingOpen (v : ValidationBarrier) : Prop :=
  (∀ k s, v.chanAnnFinSignal k = some s → v.closed s = false) ∧
  (∀ k k2 s, v.chanAnnFinSignal k = some s → v.chanAnnFinSignal k2 = some s → k = k2)

/-- The job is a channel announcement, in its wire form or in its persisted
form, whose channel key is `k` and whose endpoints are `n1` and `n2`. -/
def IsChanAnn (K : Keys) (job : Job) (k : ShortChannelID) (n1 n2 : PubKey) : Prop :=
  job = .ChannelAnnouncement k n1 n2 ∨
    ∃ c, K.NewShortChanIDFromInt c = k ∧ job = .ChannelEdgeInfo c n1 n2

/-- The two barriers differ at most in the state of the mutex. -/
def SameButMutex (v w : ValidationBarrier) : Prop :=
  w.semCap = v.semCap ∧ w.validationSemaphore = v.validationSemaphore ∧
  w.chanAnnFinSignal = v.chanAnnFinSignal ∧
  w.chanEdgeDependancies = v.chanEdgeDependancies ∧
  w.nodeAnnDependancies = v.nodeAnnDependancies ∧
  w.quit = v.quit ∧ w.made = v.made ∧ w.closed = v.closed

/-- The goroutine is inside a call of `WaitForDependants` on `job`, or about
to enter one. -/
def InWait (job : Job) (g : Goroutine) : Prop :=
  (g.pc = .idle ∧ ∃ rest, g.todo = .WaitForDependants job :: rest) ∨
  g.pc = .waitSwitch job ∨ ∃ signal, g.pc = .waitSelect signal

/-- Keys for the examples: both helpers are the identity. -/
def idKeys : Keys := ⟨fun c => c, fun p => p⟩

/-- Example job: the wire announcement of channel 7 between nodes 1 and 2. -/
def annA : Job := .ChannelAnnouncement 7 1 2

/-- Example job: the persisted announcement of channel 7, with other endpoints. -/
def annA2 : Job := .ChannelEdgeInfo 7 3 4

/-- Example state: a fresh barrier of capacity 2. -/
def fresh2 : ValidationBarrier := NewValidationBarrier 2 false

/-- Example state: `fresh2` after `annA` has been admitted and registered. -/
def registeredA : ValidationBarrier :=
  initSwitch idKeys annA { fresh2 with validationSemaphore := 1 }

/-- Example state: a barrier of capacity 1 whose only slot is taken and whose
`quit` channel has been closed. -/
def shutDownBusy : ValidationBarrier :=
  { NewValidationBarrier 1 true with validationSemaphore := 0 }

/-- Example state: a barrier of capacity 1 whose slot is free and whose `quit`
channel has been closed. -/
def shutDownFree : ValidationBarrier := NewValidationBarrier 1 true

/-- Example state: `registeredA` after `annA` has released its dependants. -/
def releasedA : ValidationBarrier :=
  { registeredA with
    closed := Function.update registeredA.closed 0 true
    chanAnnFinSignal := Function.update registeredA.chanAnnFinSignal 7 none
    chanEdgeDependancies := Function.update registeredA.chanEdgeDependancies 7 none }

/-- The calls of a job that follows the protocol: admission and registration,
the wait for its prerequisite, (its body,) the release of its dependants, and
the return of its slot. -/
def jobCalls (job : Job) : List Call :=
  [.InitJobDependancies job, .WaitForDependants job, .SignalDependants job, .CompleteJob]

/-- Example job: an update of channel 7. -/
def updB : Job := .ChannelUpdate 7

/-- Example system: a barrier of capacity 2 and three jobs, an update of
channel 7, the announcement of channel 7, and a second update of channel 7. -/
def raceSystem : System :=
  ⟨NewValidationBarrier 2 false,
    [⟨jobCalls updB, .idle⟩, ⟨jobCalls annA, .idle⟩, ⟨jobCalls updB, .idle⟩]⟩

/-- Example schedule, first part: the first update is admitted and finds
nothing to wait for; then the announcement is admitted and registers. -/
def raceFirst : List Action :=
  [.run 0 false, .run 0 false, .run 0 false, .run 0 false, .run 0 false,
   .run 1 false, .run 1 false, .run 1 false]

/-- Example schedule, second part: the first update releases and completes;
then the second update is admitted and calls `WaitForDependants`. -/
def raceSecond : List Action :=
  [.run 0 false, .run 0 false, .run 0 false,
   .run 2 false, .run 2 false, .run 2 false, .run 2 false, .run 2 false]

/-- Example state: `registeredA` after `annA2` has been admitted as well. -/
def registeredTwice : ValidationBarrier :=
  initSwitch idKeys annA2 { registeredA with validationSemaphore := 0 }

/-- The calls a job has left once it is past the select of
`InitJobDependancies`: any waits and releases, then one `CompleteJob`. -/
def tailOk : List Call → Bool
  | [.CompleteJob] => true
  | .WaitForDependants _ :: rest => tailOk rest
  | .SignalDependants _ :: rest => tailOk rest
  | _ => false

/-- The calls of a job that takes a slot once and returns it once: one
`InitJobDependancies`, any waits and releases, then one `CompleteJob`. -/
def jobProgram : List Call → Bool
  | .InitJobDependancies _ :: rest => tailOk rest
  | _ => false

/-- Example system: one job on a barrier of capacity 1. -/
def soloSystem : System :=
  ⟨NewValidationBarrier 1 false, [⟨jobCalls annA, .idle⟩]⟩

/-- Example schedule for `soloSystem`: the job is admitted and registers, then
`quit` is closed, then the job waits and releases; `CompleteJob` is next. -/
def shutdownSchedule : List Action :=
  [.run 0 false, .run 0 false, .run 0 false, .closeQuit,
   .run 0 false, .run 0 false, .run 0 false, .run 0 false]

/-! ## Dependents of a channel announcement -/

/-- The job is a dependent of the channel announcement with key `k` and
endpoints `n1`, `n2`: an update of channel `k`, or an announcement of a node
whose vertex is that of `n1` or of `n2`, in the wire or the persisted form. -/
def IsDependentOf (K : Keys) (d : Job) (k : ShortChannelID) (n1 n2 : PubKey) : Prop :=
  d = .ChannelUpdate k ∨
  (∃ c, K.NewShortChanIDFromInt c = k ∧ d = .ChannelEdgePolicy c) ∨
  (∃ n, (K.NewVertex n = K.NewVertex n1 ∨ K.NewVertex n = K.NewVertex n2) ∧
    (d = .NodeAnnouncement n ∨ d = .LightningNode n))

/-- Example system: the announcement of channel 7 between nodes 1 and 2 and
three of its dependents, on a barrier of capacity 4. -/
def fanSystem : System :=
  ⟨NewValidationBarrier 4 false,
    [⟨jobCalls annA, .idle⟩, ⟨jobCalls (.ChannelUpdate 7), .idle⟩,
     ⟨jobCalls (.NodeAnnouncement 1), .idle⟩, ⟨jobCalls (.LightningNode 2), .idle⟩]⟩

/-- Example schedule for `fanSystem`: the announcement is admitted and
registers; each dependent is admitted and arrives at the select of
`WaitForDependants`. -/
def fanWaiting : List Action :=
  [.run 0 false, .run 0 false, .run 0 false,
   .run 1 false, .run 1 false, .run 1 false, .run 1 false, .run 1 false,
   .run 2 false, .run 2 false, .run 2 false, .run 2 false, .run 2 false,
   .run 3 false, .run 3 false, .run 3 false, .run 3 false, .run 3 false]

/-- Example schedule for `fanSystem`, continued: the announcement passes
`WaitForDependants` and calls `SignalDependants` once. -/
def fanRelease : List Action :=
  [.run 0 false, .run 0 false, .run 0 false, .run 0 false]

/-- The job is of one of the four dependent kinds. -/
def IsDependentKind (job : Job) : Prop :=
  (∃ c, job = .ChannelEdgePolicy c) ∨ (∃ k, job = .ChannelUpdate k) ∨
  (∃ n, job = .NodeAnnouncement n) ∨ (∃ n, job = .LightningNode n)

/-- The two barriers hold the same three maps and the same heap of channels. -/
def SameRegistry (v w : ValidationBarrier) : Prop :=
  w.chanAnnFinSignal = v.chanAnnFinSignal ∧
  w.chanEdgeDependancies = v.chanEdgeDependancies ∧
  w.nodeAnnDependancies = v.nodeAnnDependancies ∧
  w.made = v.made ∧ w.closed = v.closed

/-! ## Two schedules on overlapping registrations -/

/-- Example job: the wire announcement of channel 8 between nodes 1 and 3. -/
def annB : Job := .ChannelAnnouncement 8 1 3

/-- Example job: the announcement of node 1. -/
def nodeX : Job := .NodeAnnouncement 1

/-- Example system: the announcements of channels 7 and 8, which share node 1,
and the announcement of node 1, on a barrier of capacity 3. -/
def overwriteSystem : System :=
  ⟨NewValidationBarrier 3 false,
    [⟨jobCalls annA, .idle⟩, ⟨jobCalls annB, .idle⟩, ⟨jobCalls nodeX, .idle⟩]⟩

/-- Example schedule for `overwriteSystem`: channel 7 registers, then channel
8; then the node announcement is admitted and arrives at the select of
`WaitForDependants`. -/
def overwriteWaiting : List Action :=
  [.run 0 false, .run 0 false, .run 0 false, .run 1 false, .run 1 false, .run 1 false,
   .run 2 false, .run 2 false, .run 2 false, .run 2 false, .run 2 false]

/-- Example schedule for `overwriteSystem`, continued: the announcement of
channel 8 passes `WaitForDependants` and calls `SignalDependants`. -/
def overwriteRelease : List Action :=
  [.run 1 false, .run 1 false, .run 1 false, .run 1 false]

/-- Example system: three announcements of channel 7 on a barrier of
capacity 3. -/
def tripleSystem : System :=
  ⟨NewValidationBarrier 3 false,
    [⟨jobCalls annA, .idle⟩, ⟨jobCalls annA2, .idle⟩, ⟨jobCalls annA, .idle⟩]⟩

/-- Example schedule for `tripleSystem`: the first two announcements register. -/
def tripleBoth : List Action :=
  [.run 0 false, .run 0 false, .run 0 false, .run 1 false, .run 1 false, .run 1 false]

/-- Example schedule for `tripleSystem`, continued: the first announcement
passes `WaitForDependants` and calls `SignalDependants`. -/
def tripleFirstRelease : List Action :=
  [.run 0 false, .run 0 false, .run 0 false, .run 0 false]

/-- Example schedule for `tripleSystem`, continued: the third announcement
registers. -/
def tripleThird : List Action :=
  [.run 2 false, .run 2 false, .run 2 false]

/-- Example schedule for `tripleSystem`, continued: the second announcement
passes `WaitForDependants` and calls `SignalDependants`. -/
def tripleSecondRelease : List Action :=
  [.run 1 false, .run 1 false, .run 1 false, .run 1 false]

/-- The goroutine is between a `Lock` and the `Unlock` that follows it: it
stands in front of one of the three type switches. -/
def holdsMutex (g : Goroutine) : Bool :=
  match g.pc with
  | .initSwitch _ => true
  | .waitSwitch _ => true
  | .signalSwitch _ => true
  | _ => false

/-- The next step of the goroutine is a select: that of `InitJobDependancies`
or `CompleteJob`, which it is about to call, or that of `WaitForDependants`. -/
def atSelect (g : Goroutine) : Bool :=
  match g.pc, g.todo with
  | .waitSelect _, _ => true
  | .idle, .InitJobDependancies _ :: _ => true
  | .idle, .CompleteJob :: _ => true
  | _, _ => false

/-- The next step of the goroutine is a `Lock`: that of `InitJobDependancies`,
or that of `WaitForDependants` or `SignalDependants`, which it is about to
call. -/
def atLock (g : Goroutine) : Bool :=
  match g.pc, g.todo with
  | .initLock _, _ => true
  | .idle, .WaitForDependants _ :: _ => true
  | .idle, .SignalDependants _ :: _ => true
  | _, _ => false

/-- The number of holders the state of the mutex stands for. -/
def mutexCount (v : ValidationBarrier) : Nat :=
  if v.locked then 1 else 0

/-- Example state: `soloSystem` after its job has taken the token and the
mutex. -/
def soloLocked : System :=
  ⟨{ NewValidationBarrier 1 false with validationSemaphore := 0, locked := true },
    [⟨[.WaitForDependants annA, .SignalDependants annA, .CompleteJob], .initSwitch annA⟩]⟩

/-! ## The key a signal was registered for -/

/-- The channel key of a channel announcement, in either form; `none` for a
job of another kind. -/
def chanKey (K : Keys) : Job → Option ShortChannelID
  | .ChannelAnnouncement k _ _ => some k
  | .ChannelEdgeInfo c _ _ => some (K.NewShortChanIDFromInt c)
  | _ => none

/-- The record kept beside an execution, which the code does not keep: for
each channel that has been made, the channel key whose registration made it.
When the type switch of `InitJobDependancies` runs on `job` in state `v` and
makes a channel, that channel is recorded under the key of `job`. -/
def recordJob (K : Keys) (job : Job) (v : ValidationBarrier)
    (r : Signal → Option ShortChannelID) : Signal → Option ShortChannelID :=
  match chanKey K job with
  | some k =>
    match v.chanAnnFinSignal k with
    | none => Function.update r v.made (some k)
    | some _ => r
  | none => r

/-- The record after one step of the system: it changes only when the step is
the type switch of `InitJobDependancies`. -/
def recordStep (K : Keys) (s : System) (a : Action)
    (r : Signal → Option ShortChannelID) : Signal → Option ShortChannelID :=
  match a with
  | .run i _ =>
    match s.goroutines[i]? with
    | some g =>
      match g.pc with
      | .initSwitch job => recordJob K job s.v r
      | _ => r
    | none => r
  | _ => r

/-- The record after a sequence of actions. -/
def record (K : Keys) :
    System → List Action → (Signal → Option ShortChannelID) →
      Signal → Option ShortChannelID
  | _, [], r => r
  | s, a :: rest, r =>
    match step K s a with
    | some t => record K t rest (recordStep K s a r)
    | none => r

/-- The barrier agrees with the record `r`: every channel made has a recorded
key; a signal stored in `chanAnnFinSignal` or in `chanEdgeDependancies` is
stored under its recorded key, and in `chanAnnFinSignal` it is open; every
open channel is stored in `chanAnnFinSignal`; `nodeAnnDependancies` holds
only channels that have been made. -/
def Tracked (v : ValidationBarrier) (r : Signal → Option ShortChannelID) : Prop :=
  (∀ sig, sig < v.made → ∃ k, r sig = some k) ∧
  (∀ k sig, v.chanAnnFinSignal k = some sig →
    r sig = some k ∧ sig < v.made ∧ v.closed sig = false) ∧
  (∀ sig, sig < v.made → v.closed sig = false → ∃ k, v.chanAnnFinSignal k = some sig) ∧
  (∀ k sig, v.chanEdgeDependancies k = some sig → r sig = some k ∧ sig < v.made) ∧
  (∀ x sig, v.nodeAnnDependancies x = some sig → sig < v.made)

/-- Every goroutine at the select of `WaitForDependants` waits on a channel
that has been made. -/
def WaitersAllocated (s : System) : Prop :=
  ∀ g ∈ s.goroutines, ∀ sig, g.pc = .waitSelect sig → sig < s.v.made

/-- Example state: `fanSystem` after `fanWaiting`. -/
def fanBlocked : System :=
  ⟨{ registeredA with semCap := 4, validationSemaphore := 0 },
    [⟨[.WaitForDependants annA, .SignalDependants annA, .CompleteJob], .idle⟩,
     ⟨[.SignalDependants (.ChannelUpdate 7), .CompleteJob], .waitSelect 0⟩,
     ⟨[.SignalDependants (.NodeAnnouncement 1), .CompleteJob], .waitSelect 0⟩,
     ⟨[.SignalDependants (.LightningNode 2), .CompleteJob], .waitSelect 0⟩]⟩

end Routing

namespace Routing

/-! ## Registration -/

theorem initSelect_some {viaQuit : Bool} {v u : ValidationBarrier}
    (h : initSelect viaQuit v = some u) :
    u = v ∨ u = { v with validationSemaphore := v.validationSemaphore - 1 } := by
  unfold initSelect at h
  split at h <;> split at h <;> simp at h <;> simp [← h]

theorem initSwitch_fresh (K : Keys) (v : ValidationBarrier) (job : Job) (k : ShortChannelID)
    (n1 n2 : PubKey) (hjob : IsChanAnn K job k n1 n2) (hfresh : v.chanAnnFinSignal k = none) :
    initSwitch K job v =
      { v with
        made := v.made + 1
        closed := Function.update v.closed v.made false
        chanAnnFinSignal := Function.update v.chanAnnFinSignal k (some v.made)
        chanEdgeDependancies := Function.update v.chanEdgeDependancies k (some v.made)
        nodeAnnDependancies :=
          Function.update
            (Function.update v.nodeAnnDependancies (K.NewVertex n1) (some v.made))
            (K.NewVertex n2) (some v.made) } := by
  rcases hjob with rfl | ⟨c, rfl, rfl⟩ <;> simp [initSwitch, hfresh]

theorem initSwitch_present (K : Keys) (v : ValidationBarrier) (job : Job) (k : ShortChannelID)
    (n1 n2 : PubKey) (hjob : IsChanAnn K job k n1 n2) {s : Signal}
    (hs : v.chanAnnFinSignal k = some s) : initSwitch K job v = v := by
  rcases hjob with rfl | ⟨c, rfl, rfl⟩ <;> simp [initSwitch, hs]

/-- C2 (fresh registration). When `chanAnnFinSignal` has no entry for `k`, a
call of `InitJobDependancies` on a channel announcement with key `k` and
endpoints `n1`, `n2` (either form) makes exactly one channel; that channel is
open and is no signal the registry already holds; afterwards the four entries
`chanAnnFinSignal[k]`, `chanEdgeDependancies[k]`,
`nodeAnnDependancies[NewVertex n1]` and `nodeAnnDependancies[NewVertex n2]`
hold it, and every other entry of the three maps, and the state of every
other channel, is as before. -/
theorem initJobDependancies_fresh_registration (K : Keys) (v u : ValidationBarrier)
    (job : Job) (k : ShortChannelID) (n1 n2 : PubKey) (viaQuit : Bool)
    (hjob : IsChanAnn K job k n1 n2) (halloc : Allocated v)
    (hfresh : v.chanAnnFinSignal k = none)
    (hcall : InitJobDependancies K viaQuit job v = some u) :
    u.made = v.made + 1 ∧ u.closed v.made = false ∧
    (∀ c, c ≠ v.made → u.closed c = v.closed c) ∧
    (∀ k2, v.chanAnnFinSignal k2 ≠ some v.made) ∧
    (∀ k2, v.chanEdgeDependancies k2 ≠ some v.made) ∧
    (∀ x, v.nodeAnnDependancies x ≠ some v.made) ∧
    u.chanAnnFinSignal k = some v.made ∧
    u.chanEdgeDependancies k = some v.made ∧
    u.nodeAnnDependancies (K.NewVertex n1) = some v.made ∧
    u.nodeAnnDependancies (K.NewVertex n2) = some v.made ∧
    (∀ k2, k2 ≠ k → u.chanAnnFinSignal k2 = v.chanAnnFinSignal k2) ∧
    (∀ k2, k2 ≠ k → u.chanEdgeDependancies k2 = v.chanEdgeDependancies k2) ∧
    (∀ x, x ≠ K.NewVertex n1 → x ≠ K.NewVertex n2 →
      u.nodeAnnDependancies x = v.nodeAnnDependancies x) := by
  obtain ⟨ha, he, hn⟩ := halloc
  have hno : ∀ (m : Nat → Option Signal), (∀ a s, m a = some s → s < v.made) →
      ∀ a, m a ≠ some v.made := fun m hm a h => Nat.lt_irrefl _ (hm a _ h)
  unfold InitJobDependancies at hcall
  obtain ⟨v1, hsel, rfl⟩ := Option.map_eq_some'.mp hcall
  have hfresh1 : v1.chanAnnFinSignal k = none := by
    rcases initSelect_some hsel with rfl | rfl <;> exact hfresh
  rw [initSwitch_fresh K v1 job k n1 n2 hjob hfresh1]
  refine ⟨?_, ?_, ?_, hno _ ha, hno _ he, hno _ hn, ?_, ?_, ?_, ?_, ?_, ?_, ?_⟩ <;>
    rcases initSelect_some hsel with rfl | rfl <;>
    simp +contextual [Function.update_apply]

theorem allocated_new (n : Nat) (q : Bool) : Allocated (NewValidationBarrier n q) := by
  simp [Allocated, NewValidationBarrier]

/-- Witness of C2: the announcement of channel 7 between nodes 1 and 2 on a
fresh barrier of capacity 2 installs channel 0 under the four keys. -/
theorem initJobDependancies_fresh_registration_witness :
    InitJobDependancies idKeys false annA fresh2 = some registeredA ∧
    registeredA.made = 1 ∧ registeredA.closed 0 = false ∧
    registeredA.chanAnnFinSignal 7 = some 0 ∧
    registeredA.chanEdgeDependancies 7 = some 0 ∧
    registeredA.nodeAnnDependancies 1 = some 0 ∧
    registeredA.nodeAnnDependancies 2 = some 0 :=
  have h := initJobDependancies_fresh_registration idKeys fresh2 registeredA annA 7 1 2 false
    (Or.inl rfl) (allocated_new 2 false) rfl rfl
  ⟨rfl, h.1, h.2.1, h.2.2.2.2.2.2.1, h.2.2.2.2.2.2.2.1, h.2.2.2.2.2.2.2.2.1,
    h.2.2.2.2.2.2.2.2.2.1⟩

/-- C3 (idempotent registration). Let two channel announcements for the same
key `k` (either form, any endpoints) be registered one after the other. If
`chanAnnFinSignal` already had an entry for `k`, the first call leaves the
three maps and the heap of channels as they were. In every case the second
call leaves the three maps and the heap as the first call left them, so that
the two calls together yield the maps of the first alone, `k` has a signal,
and exactly one channel was made if `k` had no entry and none otherwise. -/
theorem initJobDependancies_idempotent (K : Keys) (v u1 u2 : ValidationBarrier)
    (job1 job2 : Job) (k : ShortChannelID) (n1 n2 m1 m2 : PubKey) (q1 q2 : Bool)
    (hjob1 : IsChanAnn K job1 k n1 n2) (hjob2 : IsChanAnn K job2 k m1 m2)
    (hcall1 : InitJobDependancies K q1 job1 v = some u1)
    (hcall2 : InitJobDependancies K q2 job2 u1 = some u2) :
    (∀ s, v.chanAnnFinSignal k = some s →
      u1.chanAnnFinSignal = v.chanAnnFinSignal ∧
      u1.chanEdgeDependancies = v.chanEdgeDependancies ∧
      u1.nodeAnnDependancies = v.nodeAnnDependancies ∧
      u1.made = v.made ∧ u1.closed = v.closed) ∧
    (u2.chanAnnFinSignal = u1.chanAnnFinSignal ∧
      u2.chanEdgeDependancies = u1.chanEdgeDependancies ∧
      u2.nodeAnnDependancies = u1.nodeAnnDependancies ∧
      u2.made = u1.made ∧ u2.closed = u1.closed) ∧
    (∃ s, u2.chanAnnFinSignal k = some s) ∧
    (v.chanAnnFinSignal k = none → u2.made = v.made + 1) ∧
    (∀ s, v.chanAnnFinSignal k = some s → u2.made = v.made) := by
  have key : ∀ (w u : ValidationBarrier) (job : Job) (a b : PubKey) (q : Bool) (s : Signal),
      IsChanAnn K job k a b → w.chanAnnFinSignal k = some s →
      InitJobDependancies K q job w = some u →
      u.chanAnnFinSignal = w.chanAnnFinSignal ∧
      u.chanEdgeDependancies = w.chanEdgeDependancies ∧
      u.nodeAnnDependancies = w.nodeAnnDependancies ∧
      u.made = w.made ∧ u.closed = w.closed := by
    intro w u job a b q s hjob hs hcall
    unfold InitJobDependancies at hcall
    obtain ⟨w1, hsel, rfl⟩ := Option.map_eq_some'.mp hcall
    have hs1 : w1.chanAnnFinSignal k = some s := by
      rcases initSelect_some hsel with rfl | rfl <;> exact hs
    rw [initSwitch_present K w1 job k a b hjob hs1]
    rcases initSelect_some hsel with rfl | rfl <;> simp
  have hu1 : (∃ s, u1.chanAnnFinSignal k = some s) ∧
      (v.chanAnnFinSignal k = none → u1.made = v.made + 1) := by
    cases hv : v.chanAnnFinSignal k with
    | some s =>
      have := key v u1 job1 n1 n2 q1 s hjob1 hv hcall1
      exact ⟨⟨s, by rw [this.1]; exact hv⟩, by simp⟩
    | none =>
      unfold InitJobDependancies at hcall1
      obtain ⟨w1, hsel, rfl⟩ := Option.map_eq_some'.mp hcall1
      have hv1 : w1.chanAnnFinSignal k = none := by
        rcases initSelect_some hsel with rfl | rfl <;> exact hv
      rw [initSwitch_fresh K w1 job1 k n1 n2 hjob1 hv1]
      rcases initSelect_some hsel with rfl | rfl <;> simp
  obtain ⟨⟨s1, hs1⟩, hmade⟩ := hu1
  have h2 := key u1 u2 job2 m1 m2 q2 s1 hjob2 hs1 hcall2
  refine ⟨fun s hs => key v u1 job1 n1 n2 q1 s hjob1 hs hcall1, h2, ⟨s1, ?_⟩, ?_, ?_⟩
  · rw [h2.1]; exact hs1
  · intro hv; rw [h2.2.2.2.1]; exact hmade hv
  · intro s hs
    rw [h2.2.2.2.1]; exact (key v u1 job1 n1 n2 q1 s hjob1 hs hcall1).2.2.2.1

/-- Witness of C3: channel 7 is announced in its wire form and then in its
persisted form with other endpoints; the second call changes no map and
makes no channel. -/
theorem initJobDependancies_idempotent_witness :
    InitJobDependancies idKeys false annA fresh2 = some registeredA ∧
    InitJobDependancies idKeys false annA2 registeredA = some registeredTwice ∧
    registeredTwice.chanAnnFinSignal = registeredA.chanAnnFinSignal ∧
    registeredTwice.nodeAnnDependancies = registeredA.nodeAnnDependancies ∧
    registeredTwice.made = 1 :=
  have h := initJobDependancies_idempotent idKeys fresh2 registeredA registeredTwice annA annA2
    7 1 2 3 4 false false (Or.inl rfl) (Or.inr ⟨7, rfl, rfl⟩) rfl rfl
  ⟨rfl, rfl, h.2.1.1, h.2.1.2.2.1, h.2.2.2.1 rfl⟩

/-! ## Waiting -/

/-- C4 (return condition of `WaitForDependants`). A channel update looks its
channel key up in `chanEdgeDependancies` and a node announcement its vertex in
`nodeAnnDependancies` (both forms of each); a channel announcement (either
form) looks nothing up, whatever the state. When the lookup finds nothing the
call returns in the step that does the lookup. When it finds `signal`, the
goroutine moves to the select, and from there it returns exactly when `quit`
or `signal` is closed. No step of the call changes anything but the mutex. -/
theorem waitForDependants_return_condition (K : Keys) (job : Job) (v : ValidationBarrier) :
    (∀ k, job = .ChannelUpdate k → waitSwitch K job v = v.chanEdgeDependancies k) ∧
    (∀ c, job = .ChannelEdgePolicy c →
      waitSwitch K job v = v.chanEdgeDependancies (K.NewShortChanIDFromInt c)) ∧
    (∀ n, job = .NodeAnnouncement n →
      waitSwitch K job v = v.nodeAnnDependancies (K.NewVertex n)) ∧
    (∀ n, job = .LightningNode n →
      waitSwitch K job v = v.nodeAnnDependancies (K.NewVertex n)) ∧
    (∀ k n1 n2, IsChanAnn K job k n1 n2 → ∀ w, waitSwitch K job w = none) ∧
    (waitSwitch K job v = none →
      WaitForDependants K job v = some v ∧
      ∀ q todo, stepGoroutine K q v ⟨todo, .waitSwitch job⟩ =
        some (Unlock v, ⟨todo, .idle⟩)) ∧
    (∀ signal, waitSwitch K job v = some signal →
      (WaitForDependants K job v =
        if v.quit = true ∨ v.closed signal = true then some v else none) ∧
      (∀ q todo, stepGoroutine K q v ⟨todo, .waitSwitch job⟩ =
        some (Unlock v, ⟨todo, .waitSelect signal⟩)) ∧
      (∀ q todo w, stepGoroutine K q w ⟨todo, .waitSelect signal⟩ =
        if w.quit = true ∨ w.closed signal = true then some (w, ⟨todo, .idle⟩) else none)) ∧
    (∀ q g w g2, InWait job g → stepGoroutine K q v g = some (w, g2) → SameButMutex v w) := by
  refine ⟨?_, ?_, ?_, ?_, ?_, ?_, ?_, ?_⟩
  · rintro k rfl; rfl
  · rintro c rfl; rfl
  · rintro n rfl; rfl
  · rintro n rfl; rfl
  · rintro k n1 n2 (rfl | ⟨c, rfl, rfl⟩) w <;> rfl
  · intro h
    refine ⟨by simp [WaitForDependants, h], fun q todo => by simp [stepGoroutine, h]⟩
  · intro signal h
    refine ⟨?_, fun q todo => by simp [stepGoroutine, h], fun q todo w => ?_⟩
    · simp [WaitForDependants, h, waitSelect]
    · simp [stepGoroutine, waitSelect]
  · rintro q ⟨todo, pc⟩ w g2 hin hstep
    rcases hin with ⟨hpc, rest, htodo⟩ | hpc | ⟨signal, hpc⟩
    · simp only at hpc htodo
      subst hpc htodo
      simp only [stepGoroutine, Lock, Option.map_eq_some'] at hstep
      obtain ⟨a, ha, hw⟩ := hstep
      split at ha
      · simp at ha
      · simp only [Option.some.injEq] at ha
        simp only [Prod.mk.injEq] at hw
        rw [← hw.1, ← ha]
        simp [SameButMutex]
    · simp only at hpc
      subst hpc
      simp only [stepGoroutine] at hstep
      split at hstep <;>
        · simp only [Option.some.injEq, Prod.mk.injEq] at hstep
          rw [← hstep.1]
          simp [SameButMutex, Unlock]
    · simp only at hpc
      subst hpc
      simp only [stepGoroutine] at hstep
      split at hstep
      · simp only [Option.some.injEq, Prod.mk.injEq] at hstep
        rw [← hstep.1]
        simp [SameButMutex]
      · simp at hstep

/-- Witness of C4: on a fresh barrier a node announcement for node 5 finds no
entry and returns at once, leaving the barrier as it was. -/
theorem waitForDependants_return_condition_witness :
    waitSwitch idKeys (.NodeAnnouncement 5) fresh2 = none ∧
    WaitForDependants idKeys (.NodeAnnouncement 5) fresh2 = some fresh2 ∧
    stepGoroutine idKeys false fresh2 ⟨[], .waitSwitch (.NodeAnnouncement 5)⟩ =
      some (Unlock fresh2, ⟨[], .idle⟩) :=
  have h := (waitForDependants_return_condition idKeys (.NodeAnnouncement 5) fresh2).2.2.2.2.2.1
    rfl
  ⟨rfl, h.1, h.2 false []⟩

/-! ## Well-formedness is preserved -/

theorem wellFormed_congr {v w : ValidationBarrier}
    (ha : w.chanAnnFinSignal = v.chanAnnFinSignal)
    (he : w.chanEdgeDependancies = v.chanEdgeDependancies)
    (hn : w.nodeAnnDependancies = v.nodeAnnDependancies)
    (hm : w.made = v.made) (hc : w.closed = v.closed)
    (h : Allocated v ∧ PendingOpen v) : Allocated w ∧ PendingOpen w := by
  unfold Allocated PendingOpen at *
  rw [ha, he, hn, hm, hc]
  exact h

theorem wellFormed_new (n : Nat) (q : Bool) :
    Allocated (NewValidationBarrier n q) ∧ PendingOpen (NewValidationBarrier n q) := by
  simp [Allocated, PendingOpen, NewValidationBarrier]

theorem wellFormed_register (v : ValidationBarrier) (k : ShortChannelID) (x1 x2 : Vertex)
    (h : Allocated v ∧ PendingOpen v) :
    let w : ValidationBarrier :=
      { v with
        made := v.made + 1
        closed := Function.update v.closed v.made false
        chanAnnFinSignal := Function.update v.chanAnnFinSignal k (some v.made)
        chanEdgeDependancies := Function.update v.chanEdgeDependancies k (some v.made)
        nodeAnnDependancies :=
          Function.update (Function.update v.nodeAnnDependancies x1 (some v.made))
            x2 (some v.made) }
    Allocated w ∧ PendingOpen w := by
  obtain ⟨⟨ha, he, hn⟩, ho, hi⟩ := h
  have lt_succ : ∀ {s : Nat}, s < v.made → s < v.made + 1 := fun h => Nat.lt_succ_of_lt h
  refine ⟨⟨?_, ?_, ?_⟩, ?_, ?_⟩
  · intro k2 s hs
    simp only [Function.update_apply] at hs
    split at hs
    · cases hs; exact Nat.lt_succ_self _
    · exact lt_succ (ha k2 s hs)
  · intro k2 s hs
    simp only [Function.update_apply] at hs
    split at hs
    · cases hs; exact Nat.lt_succ_self _
    · exact lt_succ (he k2 s hs)
  · intro x s hs
    simp only [Function.update_apply] at hs
    split at hs
    · cases hs; exact Nat.lt_succ_self _
    · split at hs
      · cases hs; exact Nat.lt_succ_self _
      · exact lt_succ (hn x s hs)
  · intro k2 s hs
    simp only [Function.update_apply] at hs ⊢
    split at hs
    · cases hs; simp
    · have hlt : s < v.made := ha k2 s hs
      rw [if_neg (Nat.ne_of_lt hlt)]
      exact ho k2 s hs
  · intro k2 k3 s h2 h3
    simp only [Function.update_apply] at h2 h3
    split at h2
    · cases h2
      split at h3
      · simp_all
      · exact absurd (ha k3 _ h3) (Nat.lt_irrefl _)
    · split at h3
      · cases h3
        exact absurd (ha k2 _ h2) (Nat.lt_irrefl _)
      · exact hi k2 k3 s h2 h3

theorem wellFormed_initSwitch (K : Keys) (job : Job) (v : ValidationBarrier)
    (h : Allocated v ∧ PendingOpen v) :
    Allocated (initSwitch K job v) ∧ PendingOpen (initSwitch K job v) := by
  have chan : ∀ k n1 n2, IsChanAnn K job k n1 n2 →
      Allocated (initSwitch K job v) ∧ PendingOpen (initSwitch K job v) := by
    intro k n1 n2 hjob
    cases hv : v.chanAnnFinSignal k with
    | some s => rw [initSwitch_present K v job k n1 n2 hjob hv]; exact h
    | none =>
      rw [initSwitch_fresh K v job k n1 n2 hjob hv]
      exact wellFormed_register v k _ _ h
  cases job with
  | ChannelAnnouncement k n1 n2 => exact chan k n1 n2 (Or.inl rfl)
  | ChannelEdgeInfo c n1 n2 => exact chan _ n1 n2 (Or.inr ⟨c, rfl, rfl⟩)
  | _ => exact h

theorem wellFormed_delete_edge (v : ValidationBarrier) (k : ShortChannelID)
    (h : Allocated v ∧ PendingOpen v) :
    let w : ValidationBarrier :=
      { v with chanEdgeDependancies := Function.update v.chanEdgeDependancies k none }
    Allocated w ∧ PendingOpen w := by
  obtain ⟨⟨ha, he, hn⟩, ho⟩ := h
  refine ⟨⟨ha, ?_, hn⟩, ho⟩
  intro k2 s hs
  simp only [Function.update_apply] at hs
  split at hs
  · cases hs
  · exact he k2 s hs

theorem wellFormed_delete_node (v : ValidationBarrier) (x : Vertex)
    (h : Allocated v ∧ PendingOpen v) :
    let w : ValidationBarrier :=
      { v with nodeAnnDependancies := Function.update v.nodeAnnDependancies x none }
    Allocated w ∧ PendingOpen w := by
  obtain ⟨⟨ha, he, hn⟩, ho⟩ := h
  refine ⟨⟨ha, he, ?_⟩, ho⟩
  intro k2 s hs
  simp only [Function.update_apply] at hs
  split at hs
  · cases hs
  · exact hn k2 s hs

theorem wellFormed_fire (v : ValidationBarrier) (k : ShortChannelID) (s : Signal)
    (hs : v.chanAnnFinSignal k = some s) (h : Allocated v ∧ PendingOpen v) :
    let w : ValidationBarrier :=
      { v with
        closed := Function.update v.closed s true
        chanAnnFinSignal := Function.update v.chanAnnFinSignal k none }
    Allocated w ∧ PendingOpen w := by
  obtain ⟨⟨ha, he, hn⟩, ho, hi⟩ := h
  refine ⟨⟨?_, he, hn⟩, ?_, ?_⟩
  · intro k2 t ht
    simp only [Function.update_apply] at ht
    split at ht
    · cases ht
    · exact ha k2 t ht
  · intro k2 t ht
    simp only [Function.update_apply] at ht ⊢
    split at ht
    · cases ht
    · rename_i hne
      have hts : t ≠ s := fun e => hne (hi k2 k t ht (e ▸ hs))
      rw [if_neg hts]
      exact ho k2 t ht
  · intro k2 k3 t h2 h3
    simp only [Function.update_apply] at h2 h3
    split at h2
    · cases h2
    · split at h3
      · cases h3
      · exact hi k2 k3 t h2 h3

theorem wellFormed_signalDependants (K : Keys) (job : Job) (v : ValidationBarrier)
    (h : Allocated v ∧ PendingOpen v) :
    ∃ u, SignalDependants K job v = some u ∧ Allocated u ∧ PendingOpen u := by
  have fire : ∀ k, ∃ u,
      (match v.chanAnnFinSignal k with
        | some finSignal =>
          (closeChan finSignal v).map fun (w : ValidationBarrier) =>
            { w with chanAnnFinSignal := Function.update w.chanAnnFinSignal k none }
        | none => some v) = some u ∧ Allocated u ∧ PendingOpen u := by
    intro k
    cases hv : v.chanAnnFinSignal k with
    | some s =>
      have hopen : v.closed s = false := h.2.1 k s hv
      exact ⟨_, by simp [closeChan, hopen], wellFormed_fire v k s hv h⟩
    | none => exact ⟨v, rfl, h⟩
  cases job with
  | ChannelAnnouncement k n1 n2 =>
    obtain ⟨u, hu, hwf⟩ := fire k
    refine ⟨_, ?_, wellFormed_delete_edge u k hwf⟩
    simp only [SignalDependants]
    rw [hu]
    rfl
  | ChannelEdgeInfo c n1 n2 =>
    obtain ⟨u, hu, hwf⟩ := fire (K.NewShortChanIDFromInt c)
    exact ⟨u, hu, hwf⟩
  | ChannelEdgePolicy c => exact ⟨_, rfl, wellFormed_delete_edge v _ h⟩
  | ChannelUpdate k => exact ⟨_, rfl, wellFormed_delete_edge v _ h⟩
  | NodeAnnouncement n => exact ⟨_, rfl, wellFormed_delete_node v _ h⟩
  | LightningNode n => exact ⟨_, rfl, wellFormed_delete_node v _ h⟩
  | AnnounceSignatures => exact ⟨v, rfl, h⟩
  | Other => exact ⟨v, rfl, h⟩

/-! ## Release of a prerequisite -/

theorem signalDependants_chanAnn (K : Keys) (v : ValidationBarrier) (job : Job)
    (k : ShortChannelID) (n1 n2 : PubKey) (hjob : IsChanAnn K job k n1 n2) :
    (∀ s, v.chanAnnFinSignal k = some s → v.closed s = false →
      ∃ u, SignalDependants K job v = some u ∧
        u.closed = Function.update v.closed s true ∧
        u.chanAnnFinSignal = Function.update v.chanAnnFinSignal k none) ∧
    (v.chanAnnFinSignal k = none →
      ∃ u, SignalDependants K job v = some u ∧ u.closed = v.closed ∧
        u.chanAnnFinSignal = v.chanAnnFinSignal) ∧
    (∀ u, SignalDependants K job v = some u →
      u.nodeAnnDependancies = v.nodeAnnDependancies ∧ u.made = v.made ∧
      u.validationSemaphore = v.validationSemaphore ∧ u.semCap = v.semCap ∧
      u.quit = v.quit ∧ u.locked = v.locked ∧
      (∀ k2, k2 ≠ k → u.chanEdgeDependancies k2 = v.chanEdgeDependancies k2)) := by
  refine ⟨?_, ?_, ?_⟩
  · intro s hs hopen
    rcases hjob with rfl | ⟨c, rfl, rfl⟩ <;> simp [SignalDependants, hs, closeChan, hopen]
  · intro hnone
    rcases hjob with rfl | ⟨c, rfl, rfl⟩ <;> simp [SignalDependants, hnone]
  · intro u hu
    rcases hjob with rfl | ⟨c, rfl, rfl⟩
    · simp only [SignalDependants, closeChan] at hu
      split at hu
      · split at hu
        · simp at hu
        · simp only [Option.map_some', Option.some.injEq] at hu
          subst hu
          simp +contextual [Function.update_apply]
      · simp only [Option.map_some', Option.some.injEq] at hu
        subst hu
        simp +contextual [Function.update_apply]
    · simp only [SignalDependants, closeChan] at hu
      split at hu
      · split at hu
        · simp at hu
        · simp only [Option.map_some', Option.some.injEq] at hu
          subst hu
          simp
      · simp only [Option.some.injEq] at hu
        subst hu
        simp

/-- C6 (release of a prerequisite). In a well-formed state, `SignalDependants`
on a channel announcement with key `k` (either form) returns. If
`chanAnnFinSignal[k]` was `s`, then `s` is closed afterwards and no other
channel changes state; if `k` had no entry, no channel changes state. In both
cases `chanAnnFinSignal` has no entry for `k` afterwards, its other entries
and all of `nodeAnnDependancies` are unchanged, and a following registration
of a channel announcement with key `k` installs a channel that is open and is
not `s`. -/
theorem signalDependants_prerequisite_release (K : Keys) (v : ValidationBarrier) (job : Job)
    (k : ShortChannelID) (n1 n2 : PubKey) (hjob : IsChanAnn K job k n1 n2)
    (halloc : Allocated v) (hopen : PendingOpen v) :
    ∃ u, SignalDependants K job v = some u ∧
      (∀ s, v.chanAnnFinSignal k = some s →
        u.closed s = true ∧ ∀ c, c ≠ s → u.closed c = v.closed c) ∧
      (v.chanAnnFinSignal k = none → u.closed = v.closed) ∧
      u.chanAnnFinSignal k = none ∧
      (∀ k2, k2 ≠ k → u.chanAnnFinSignal k2 = v.chanAnnFinSignal k2) ∧
      u.nodeAnnDependancies = v.nodeAnnDependancies ∧
      (∀ job2 m1 m2 q w, IsChanAnn K job2 k m1 m2 →
        InitJobDependancies K q job2 u = some w →
        ∃ t, w.chanAnnFinSignal k = some t ∧ w.closed t = false ∧
          v.chanAnnFinSignal k ≠ some t) := by
  obtain ⟨h1, h2, h3⟩ := signalDependants_chanAnn K v job k n1 n2 hjob
  have hreg : ∀ u, SignalDependants K job v = some u → u.chanAnnFinSignal k = none →
      ∀ job2 m1 m2 q w, IsChanAnn K job2 k m1 m2 →
        InitJobDependancies K q job2 u = some w →
        ∃ t, w.chanAnnFinSignal k = some t ∧ w.closed t = false ∧
          v.chanAnnFinSignal k ≠ some t := by
    intro u hu hk job2 m1 m2 q w hjob2 hcall
    unfold InitJobDependancies at hcall
    obtain ⟨u1, hsel, rfl⟩ := Option.map_eq_some'.mp hcall
    have hk1 : u1.chanAnnFinSignal k = none := by
      rcases initSelect_some hsel with rfl | rfl <;> exact hk
    have hm0 : u1.made = u.made := by
      rcases initSelect_some hsel with h | h <;> rw [h]
    have hm1 : u1.made = v.made := hm0.trans (h3 u hu).2.1
    rw [initSwitch_fresh K u1 job2 k m1 m2 hjob2 hk1]
    refine ⟨u1.made, by simp, by simp, fun h => ?_⟩
    have hlt : u1.made < v.made := halloc.1 k _ h
    rw [hm1] at hlt
    exact Nat.lt_irrefl _ hlt
  cases hv : v.chanAnnFinSignal k with
  | some s =>
    obtain ⟨u, hu, hc, ha⟩ := h1 s hv (hopen.1 k s hv)
    have hk : u.chanAnnFinSignal k = none := by simp [ha]
    refine ⟨u, hu, ?_, by simp, hk, ?_, (h3 u hu).1, ?_⟩
    · intro s2 hs2
      cases hs2
      simp +contextual [hc, Function.update_apply]
    · intro k2 hk2
      simp [ha, Function.update_apply, hk2]
    · simpa [hv] using hreg u hu hk
  | none =>
    obtain ⟨u, hu, hc, ha⟩ := h2 hv
    have hk : u.chanAnnFinSignal k = none := by rw [ha]; exact hv
    refine ⟨u, hu, by simp, fun _ => hc, hk, fun k2 _ => by rw [ha], (h3 u hu).1, ?_⟩
    simpa [hv] using hreg u hu hk

theorem wellFormed_registeredA : Allocated registeredA ∧ PendingOpen registeredA :=
  wellFormed_initSwitch idKeys annA _
    (wellFormed_congr rfl rfl rfl rfl rfl (wellFormed_new 2 false))

/-- Witness of C6: after channel 7 has been registered, the release by its
wire announcement returns `releasedA`, in which channel 0 is closed and key 7
has no entry. -/
theorem signalDependants_prerequisite_release_witness :
    registeredA.chanAnnFinSignal 7 = some 0 ∧
    SignalDependants idKeys annA registeredA = some releasedA ∧
    releasedA.closed 0 = true ∧ releasedA.chanAnnFinSignal 7 = none := by
  obtain ⟨u, hu, hs, -, hk, -⟩ :=
    signalDependants_prerequisite_release idKeys registeredA annA 7 1 2 (Or.inl rfl)
      wellFormed_registeredA.1 wellFormed_registeredA.2
  have hrel : SignalDependants idKeys annA registeredA = some releasedA := rfl
  have hu2 : u = releasedA := Option.some.inj (hu.symm.trans hrel)
  subst hu2
  exact ⟨rfl, hrel, (hs 0 rfl).1, hk⟩

/-! ## Wire form and persisted form -/

/-- C7 (the two forms of a channel announcement differ on release). In the
state reached by registering channel 7, `SignalDependants` on the wire form
`ChannelAnnouncement` deletes `chanEdgeDependancies[7]`, while on the
persisted form `ChannelEdgeInfo` with the same key and the same endpoints it
leaves the entry in place; the two calls agree on `chanAnnFinSignal` and on
the signal they close. -/
theorem signalDependants_forms_differ :
    idKeys.NewShortChanIDFromInt 7 = 7 ∧
    registeredA.chanEdgeDependancies 7 = some 0 ∧
    (SignalDependants idKeys (.ChannelAnnouncement 7 1 2) registeredA).map
      (fun u => (u.chanEdgeDependancies 7, u.chanAnnFinSignal 7, u.closed 0)) =
      some (none, none, true) ∧
    (SignalDependants idKeys (.ChannelEdgeInfo 7 1 2) registeredA).map
      (fun u => (u.chanEdgeDependancies 7, u.chanAnnFinSignal 7, u.closed 0)) =
      some (some 0, none, true) := by
  refine ⟨rfl, rfl, rfl, rfl⟩

/-! ## Shutdown -/

/-- Counterexample to C9 as stated: `quit` is closed and the only slot is
taken; `CompleteJob` may take the send case of its select, and then one slot
is available where none was. The state arises when the one job of
`soloSystem` is admitted, `quit` is closed, and the job arrives at
`CompleteJob`. -/
theorem completeJob_after_quit_counterexample :
    shutDownBusy.quit = true ∧ shutDownBusy.validationSemaphore = 0 ∧
    (CompleteJob false shutDownBusy).map (fun u => u.validationSemaphore) = some 1 ∧
    (run idKeys soloSystem shutdownSchedule).map
      (fun s => (s.v.quit, s.v.validationSemaphore, s.goroutines)) =
      some (true, 0, [⟨[.CompleteJob], .idle⟩]) ∧
    (run idKeys soloSystem (shutdownSchedule ++ [.run 0 false])).map
      (fun s => (s.v.quit, s.v.validationSemaphore, s.goroutines)) =
      some (true, 1, [⟨[], .idle⟩]) := by
  refine ⟨rfl, rfl, rfl, by rfl, by rfl⟩

/-- C9, amended (release after shutdown). Once `quit` is closed `CompleteJob`
never blocks: the quit case of its select is ready, and taking it leaves the
barrier as it is. The send case is ready as well exactly when fewer than
`semCap` slots are available, and taking it makes one more slot available.
So the call returns with the number of available slots unchanged or, when it
was below `semCap`, raised by one; when all slots are available it is
unchanged. Nothing but the slot count is ever changed. -/
theorem completeJob_after_quit (v : ValidationBarrier) (hquit : v.quit = true) :
    CompleteJob true v = some v ∧
    ((CompleteJob false v).isSome = true ↔ v.validationSemaphore < v.semCap) ∧
    (∀ q u, CompleteJob q v = some u →
      (u = v ∨ (v.validationSemaphore < v.semCap ∧
        u = { v with validationSemaphore := v.validationSemaphore + 1 }))) ∧
    (v.validationSemaphore = v.semCap → ∀ q u, CompleteJob q v = some u → u = v) := by
  have hall : ∀ q u, CompleteJob q v = some u →
      (u = v ∨ (v.validationSemaphore < v.semCap ∧
        u = { v with validationSemaphore := v.validationSemaphore + 1 })) := by
    intro q u hu
    unfold CompleteJob at hu
    split at hu
    · simp [hquit] at hu
      exact Or.inl hu.symm
    · split at hu
      · rename_i hlt
        simp only [Option.some.injEq] at hu
        exact Or.inr ⟨hlt, hu.symm⟩
      · simp at hu
  refine ⟨by simp [CompleteJob, hquit], ?_, hall, ?_⟩
  · unfold CompleteJob
    by_cases hlt : v.validationSemaphore < v.semCap <;> simp [hlt]
  · intro hfull q u hu
    rcases hall q u hu with h | ⟨hlt, -⟩
    · exact h
    · omega

/-- Witness of C9, amended: with `quit` closed and the only slot taken, the
quit case returns the barrier unchanged. -/
theorem completeJob_after_quit_witness :
    shutDownBusy.quit = true ∧ CompleteJob true shutDownBusy = some shutDownBusy :=
  ⟨rfl, (completeJob_after_quit shutDownBusy rfl).1⟩

/-- Counterexample to C10 as stated: `quit` is closed and one slot is
available; `InitJobDependancies` may take the receive case of its select, and
then no slot is available. The same happens in `soloSystem` when `quit` is
closed before the job is admitted. -/
theorem initJobDependancies_after_quit_counterexample :
    shutDownFree.quit = true ∧ shutDownFree.validationSemaphore = 1 ∧
    (InitJobDependancies idKeys false annA shutDownFree).map
      (fun u => u.validationSemaphore) = some 0 ∧
    (run idKeys soloSystem [.closeQuit]).map
      (fun s => (s.v.quit, s.v.validationSemaphore, s.goroutines.map (fun g => g.pc))) =
      some (true, 1, [.idle]) ∧
    (run idKeys soloSystem [.closeQuit, .run 0 false]).map
      (fun s => (s.v.quit, s.v.validationSemaphore, s.goroutines.map (fun g => g.pc))) =
      some (true, 0, [.initLock annA]) := by
  refine ⟨rfl, rfl, rfl, by rfl, by rfl⟩

theorem initSwitch_frame (K : Keys) (job : Job) (v : ValidationBarrier) :
    (initSwitch K job v).validationSemaphore = v.validationSemaphore ∧
    (initSwitch K job v).semCap = v.semCap ∧
    (initSwitch K job v).quit = v.quit ∧
    (initSwitch K job v).locked = v.locked := by
  cases job <;> simp only [initSwitch] <;> first | (split <;> simp) | simp

/-- C10, amended (admission after shutdown). Once `quit` is closed
`InitJobDependancies` never blocks: the quit case of its select is ready, and
taking it leaves the number of available slots unchanged. The receive case is
ready as well exactly when a slot is available, and taking it takes a slot. So
the call returns with the slot count unchanged or, when it was positive,
lowered by one. When no slot is available the call is blocked as long as
`quit` is open, and once `quit` is closed it can only return through the quit
case, with the slot count still 0. -/
theorem initJobDependancies_after_quit (K : Keys) (job : Job) (v : ValidationBarrier)
    (hquit : v.quit = true) :
    (∃ u, InitJobDependancies K true job v = some u ∧
      u.validationSemaphore = v.validationSemaphore) ∧
    ((InitJobDependancies K false job v).isSome = true ↔ 0 < v.validationSemaphore) ∧
    (∀ q u, InitJobDependancies K q job v = some u →
      u.validationSemaphore = v.validationSemaphore ∨
      (0 < v.validationSemaphore ∧ u.validationSemaphore = v.validationSemaphore - 1)) ∧
    (v.validationSemaphore = 0 →
      (∀ q, InitJobDependancies K q job { v with quit := false } = none) ∧
      ∀ q u, InitJobDependancies K q job v = some u →
        q = true ∧ u.validationSemaphore = 0) := by
  have hall : ∀ q u, InitJobDependancies K q job v = some u →
      (q = true ∧ u.validationSemaphore = v.validationSemaphore) ∨
      (0 < v.validationSemaphore ∧ u.validationSemaphore = v.validationSemaphore - 1) := by
    intro q u hu
    unfold InitJobDependancies initSelect at hu
    obtain ⟨v1, hsel, rfl⟩ := Option.map_eq_some'.mp hu
    rw [(initSwitch_frame K job v1).1]
    split at hsel
    · rename_i hq
      simp only [hquit, if_true, Option.some.injEq] at hsel
      exact Or.inl ⟨hq, by rw [← hsel]⟩
    · split at hsel
      · rename_i hpos
        simp only [Option.some.injEq] at hsel
        exact Or.inr ⟨hpos, by rw [← hsel]⟩
      · simp at hsel
  refine ⟨⟨initSwitch K job v, by simp [InitJobDependancies, initSelect, hquit],
    (initSwitch_frame K job v).1⟩, ?_, ?_, ?_⟩
  · unfold InitJobDependancies initSelect
    by_cases hpos : 0 < v.validationSemaphore <;> simp [hpos]
  · intro q u hu
    rcases hall q u hu with h | h
    · exact Or.inl h.2
    · exact Or.inr h
  · intro hzero
    refine ⟨fun q => ?_, fun q u hu => ?_⟩
    · cases q <;> simp [InitJobDependancies, initSelect, hzero]
    · rcases hall q u hu with h | h
      · exact ⟨h.1, by rw [h.2, hzero]⟩
      · omega

/-- Witness of C10, amended: with `quit` closed and one slot free, the quit
case registers the announcement and leaves the slot free. -/
theorem initJobDependancies_after_quit_witness :
    shutDownFree.quit = true ∧
    (InitJobDependancies idKeys true annA shutDownFree).map
      (fun u => (u.validationSemaphore, u.chanAnnFinSignal 7)) = some (1, some 0) ∧
    ((InitJobDependancies idKeys false annA shutDownFree).isSome = true ↔
      0 < shutDownFree.validationSemaphore) :=
  ⟨rfl, rfl, (initJobDependancies_after_quit idKeys annA shutDownFree rfl).2.1⟩

/-! ## Dependency ordering -/

/-- C1 (evaluation at the failing execution). Capacity 2, quit never closed,
every job calling `InitJobDependancies`, `WaitForDependants`,
`SignalDependants`, `CompleteJob` in that order. After `raceFirst` the
announcement of channel 7 (goroutine 1) has returned from
`InitJobDependancies`, channel 0 is registered under key 7 in both maps, and
the second update (goroutine 2) has not started. After `raceSecond` the second
update has returned from `WaitForDependants`, although the announcement has
not called `SignalDependants` and channel 0 is still open: the first update
deleted `chanEdgeDependancies[7]` when it released. -/
theorem dependency_ordering_violated :
    (run idKeys raceSystem raceFirst).map
      (fun s => (s.goroutines, s.v.chanAnnFinSignal 7, s.v.chanEdgeDependancies 7,
        s.v.closed 0, s.v.quit)) =
      some ([⟨[.SignalDependants updB, .CompleteJob], .idle⟩,
          ⟨[.WaitForDependants annA, .SignalDependants annA, .CompleteJob], .idle⟩,
          ⟨jobCalls updB, .idle⟩],
        some 0, some 0, false, false) ∧
    (run idKeys raceSystem (raceFirst ++ raceSecond)).map
      (fun s => (s.goroutines, s.v.chanAnnFinSignal 7, s.v.chanEdgeDependancies 7,
        s.v.closed 0, s.v.quit)) =
      some ([⟨[], .idle⟩,
          ⟨[.WaitForDependants annA, .SignalDependants annA, .CompleteJob], .idle⟩,
          ⟨[.SignalDependants updB, .CompleteJob], .idle⟩],
        some 0, none, false, false) := by
  refine ⟨by rfl, by rfl⟩

/-! ## Reachable states are well formed -/

theorem completeJob_some {viaQuit : Bool} {v u : ValidationBarrier}
    (h : CompleteJob viaQuit v = some u) :
    u = v ∨ u = { v with validationSemaphore := v.validationSemaphore + 1 } := by
  unfold CompleteJob at h
  split at h <;> split at h <;> simp at h <;> simp [← h]

theorem lock_some {v u : ValidationBarrier} (h : Lock v = some u) :
    u = { v with locked := true } := by
  unfold Lock at h
  split at h <;> simp at h
  exact h.symm

theorem stepGoroutine_wellFormed (K : Keys) (q : Bool) (v w : ValidationBarrier)
    (g g2 : Goroutine) (h : Allocated v ∧ PendingOpen v)
    (hstep : stepGoroutine K q v g = some (w, g2)) : Allocated w ∧ PendingOpen w := by
  obtain ⟨todo, pc⟩ := g
  cases pc with
  | idle =>
    cases todo with
    | nil => simp [stepGoroutine] at hstep
    | cons c rest =>
      cases c with
      | InitJobDependancies job =>
        simp only [stepGoroutine, Option.map_eq_some', Prod.mk.injEq] at hstep
        obtain ⟨a, ha, rfl, -⟩ := hstep
        rcases initSelect_some ha with rfl | rfl <;> exact wellFormed_congr rfl rfl rfl rfl rfl h
      | CompleteJob =>
        simp only [stepGoroutine, Option.map_eq_some', Prod.mk.injEq] at hstep
        obtain ⟨a, ha, rfl, -⟩ := hstep
        rcases completeJob_some ha with rfl | rfl <;> exact wellFormed_congr rfl rfl rfl rfl rfl h
      | WaitForDependants job =>
        simp only [stepGoroutine, Option.map_eq_some', Prod.mk.injEq] at hstep
        obtain ⟨a, ha, rfl, -⟩ := hstep
        rw [lock_some ha]
        exact wellFormed_congr rfl rfl rfl rfl rfl h
      | SignalDependants job =>
        simp only [stepGoroutine, Option.map_eq_some', Prod.mk.injEq] at hstep
        obtain ⟨a, ha, rfl, -⟩ := hstep
        rw [lock_some ha]
        exact wellFormed_congr rfl rfl rfl rfl rfl h
  | initLock job =>
    simp only [stepGoroutine, Option.map_eq_some', Prod.mk.injEq] at hstep
    obtain ⟨a, ha, rfl, -⟩ := hstep
    rw [lock_some ha]
    exact wellFormed_congr rfl rfl rfl rfl rfl h
  | initSwitch job =>
    simp only [stepGoroutine, Option.some.injEq, Prod.mk.injEq] at hstep
    rw [← hstep.1]
    exact wellFormed_congr rfl rfl rfl rfl rfl (wellFormed_initSwitch K job v h)
  | waitSwitch job =>
    simp only [stepGoroutine] at hstep
    split at hstep <;>
      · simp only [Option.some.injEq, Prod.mk.injEq] at hstep
        rw [← hstep.1]
        exact wellFormed_congr rfl rfl rfl rfl rfl h
  | waitSelect signal =>
    simp only [stepGoroutine] at hstep
    split at hstep
    · simp only [Option.some.injEq, Prod.mk.injEq] at hstep
      rw [← hstep.1]
      exact h
    · simp at hstep
  | signalSwitch job =>
    simp only [stepGoroutine, Option.map_eq_some', Prod.mk.injEq] at hstep
    obtain ⟨a, ha, rfl, -⟩ := hstep
    obtain ⟨u, hu, hwf⟩ := wellFormed_signalDependants K job v h
    rw [hu] at ha
    cases ha
    exact wellFormed_congr rfl rfl rfl rfl rfl hwf

theorem step_wellFormed (K : Keys) (s t : System) (a : Action)
    (h : Allocated s.v ∧ PendingOpen s.v) (hstep : step K s a = some t) :
    Allocated t.v ∧ PendingOpen t.v := by
  cases a with
  | run i q =>
    simp only [step] at hstep
    split at hstep
    · simp at hstep
    · rename_i g hg
      simp only [Option.map_eq_some'] at hstep
      obtain ⟨⟨w, g2⟩, hr, rfl⟩ := hstep
      exact stepGoroutine_wellFormed K q s.v w g g2 h hr
  | handoff i j =>
    simp only [step] at hstep
    split at hstep
    · split at hstep
      · simp only [Option.some.injEq] at hstep
        rw [← hstep]
        exact h
      · simp at hstep
    · simp at hstep
  | closeQuit =>
    simp only [step] at hstep
    split at hstep
    · simp at hstep
    · simp only [Option.some.injEq] at hstep
      rw [← hstep]
      exact wellFormed_congr rfl rfl rfl rfl rfl h

theorem run_wellFormed (K : Keys) (acts : List Action) :
    ∀ (s t : System), Allocated s.v ∧ PendingOpen s.v → run K s acts = some t →
      Allocated t.v ∧ PendingOpen t.v := by
  induction acts with
  | nil =>
    intro s t h hrun
    simp only [run, Option.some.injEq] at hrun
    rw [← hrun]
    exact h
  | cons a rest ih =>
    intro s t h hrun
    simp only [run, Option.bind_eq_some] at hrun
    obtain ⟨m, hm, hrest⟩ := hrun
    exact ih m t (step_wellFormed K s m a h hm) hrest

theorem reachable_wellFormed (K : Keys) (n : Nat) (s : System) (h : Reachable K n s) :
    Allocated s.v ∧ PendingOpen s.v := by
  obtain ⟨q, gs, acts, -, hrun⟩ := h
  exact run_wellFormed K acts _ s (wellFormed_new n q) hrun

theorem sum_map_set {α : Type} (f : α → Nat) :
    ∀ (l : List α) (i : Nat) (a b : α), l[i]? = some a →
      ((l.set i b).map f).sum + f a = (l.map f).sum + f b := by
  intro l
  induction l with
  | nil => intro i a b h; simp at h
  | cons x xs ih =>
    intro i a b h
    cases i with
    | zero =>
      simp only [List.getElem?_cons_zero, Option.some.injEq] at h
      subst h
      simp only [List.set_cons_zero, List.map_cons, List.sum_cons]
      omega
    | succ j =>
      simp only [List.getElem?_cons_succ] at h
      have := ih j a b h
      simp only [List.set_cons_succ, List.map_cons, List.sum_cons]
      omega

theorem soloSystem_jobs :
    ∀ g ∈ soloSystem.goroutines, g.pc = .idle ∧ jobProgram g.todo = true := by
  intro g hg
  simp only [soloSystem, List.mem_singleton] at hg
  subst hg
  exact ⟨rfl, rfl⟩

theorem initJobDependancies_fresh_entries (K : Keys) (v u : ValidationBarrier) (job : Job)
    (k : ShortChannelID) (n1 n2 : PubKey) (q : Bool) (hjob : IsChanAnn K job k n1 n2)
    (hfresh : v.chanAnnFinSignal k = none)
    (hcall : InitJobDependancies K q job v = some u) :
    u.chanAnnFinSignal k = some v.made ∧ u.chanEdgeDependancies k = some v.made ∧
    u.nodeAnnDependancies (K.NewVertex n1) = some v.made ∧
    u.nodeAnnDependancies (K.NewVertex n2) = some v.made ∧
    u.closed v.made = false ∧ u.made = v.made + 1 ∧
    (u.validationSemaphore = v.validationSemaphore ∨
      u.validationSemaphore = v.validationSemaphore - 1) := by
  unfold InitJobDependancies at hcall
  obtain ⟨v1, hsel, rfl⟩ := Option.map_eq_some'.mp hcall
  have hfresh1 : v1.chanAnnFinSignal k = none := by
    rcases initSelect_some hsel with rfl | rfl <;> exact hfresh
  rw [initSwitch_fresh K v1 job k n1 n2 hjob hfresh1]
  rcases initSelect_some hsel with rfl | rfl <;> simp [Function.update_apply]

/-- C11 (broadcast fan-out). Let a channel announcement with key `k` and
endpoints `n1`, `n2` register in a state where `k` has no entry, and let
`v.made` be the channel this makes. Every dependent of it (an update of `k`,
an announcement of `n1` or `n2`) whose `WaitForDependants` does its lookup
while the three entries are as the registration left them selects that one
channel and moves to the select; so do all the jobs of any list of
dependents. While that channel is open and `quit` is open, a goroutine at
that select is blocked. One `SignalDependants` call of a channel announcement
for `k`, made while `chanAnnFinSignal[k]` still holds the channel, closes it,
and from then on every goroutine waiting at that select can return. -/
theorem broadcast_fan_out (K : Keys) (v u : ValidationBarrier) (job : Job)
    (k : ShortChannelID) (n1 n2 : PubKey) (q : Bool) (hjob : IsChanAnn K job k n1 n2)
    (hfresh : v.chanAnnFinSignal k = none)
    (hcall : InitJobDependancies K q job v = some u) :
    (∀ d w, IsDependentOf K d k n1 n2 →
      w.chanEdgeDependancies k = u.chanEdgeDependancies k →
      w.nodeAnnDependancies (K.NewVertex n1) = u.nodeAnnDependancies (K.NewVertex n1) →
      w.nodeAnnDependancies (K.NewVertex n2) = u.nodeAnnDependancies (K.NewVertex n2) →
      waitSwitch K d w = some v.made ∧
      ∀ q2 todo, stepGoroutine K q2 w ⟨todo, .waitSwitch d⟩ =
        some (Unlock w, ⟨todo, .waitSelect v.made⟩)) ∧
    (∀ ds : List Job, (∀ d ∈ ds, IsDependentOf K d k n1 n2) →
      ds.map (fun d => waitSwitch K d u) = List.replicate ds.length (some v.made)) ∧
    (∀ x job2 m1 m2, IsChanAnn K job2 k m1 m2 →
      x.chanAnnFinSignal k = u.chanAnnFinSignal k → x.closed v.made = u.closed v.made →
      (x.quit = false →
        ∀ q2 todo, stepGoroutine K q2 x ⟨todo, .waitSelect v.made⟩ = none) ∧
      ∃ y, SignalDependants K job2 x = some y ∧ y.closed v.made = true ∧
        ∀ z, z.closed v.made = true → ∀ q2 todo,
          stepGoroutine K q2 z ⟨todo, .waitSelect v.made⟩ = some (z, ⟨todo, .idle⟩)) := by
  obtain ⟨ha, he, hn1, hn2, hc, -, -⟩ :=
    initJobDependancies_fresh_entries K v u job k n1 n2 q hjob hfresh hcall
  have look : ∀ d w, IsDependentOf K d k n1 n2 →
      w.chanEdgeDependancies k = u.chanEdgeDependancies k →
      w.nodeAnnDependancies (K.NewVertex n1) = u.nodeAnnDependancies (K.NewVertex n1) →
      w.nodeAnnDependancies (K.NewVertex n2) = u.nodeAnnDependancies (K.NewVertex n2) →
      waitSwitch K d w = some v.made := by
    intro d w hd hwe hw1 hw2
    rw [he] at hwe
    rw [hn1] at hw1
    rw [hn2] at hw2
    rcases hd with rfl | ⟨c, rfl, rfl⟩ | ⟨n, hn | hn, rfl | rfl⟩
    · simp [waitSwitch, hwe]
    · simp [waitSwitch, hwe]
    all_goals simp [waitSwitch, hw1, hw2, hn]
  refine ⟨fun d w hd hwe hw1 hw2 => ?_, fun ds hds => ?_, ?_⟩
  · have h := look d w hd hwe hw1 hw2
    exact ⟨h, fun q2 todo => by simp [stepGoroutine, h]⟩
  · induction ds with
    | nil => rfl
    | cons d rest ih =>
      have hd := look d u (hds d (List.mem_cons_self _ _)) rfl rfl rfl
      have hrest := ih (fun e he => hds e (List.mem_cons_of_mem _ he))
      simp only [List.map_cons, List.length_cons, List.replicate_succ, hd, hrest]
  · intro x job2 m1 m2 hjob2 hxa hxc
    rw [ha] at hxa
    rw [hc] at hxc
    obtain ⟨y, hy, hyc, -⟩ := (signalDependants_chanAnn K x job2 k m1 m2 hjob2).1 _ hxa hxc
    refine ⟨fun hq q2 todo => by simp [stepGoroutine, waitSelect, hq, hxc],
      y, hy, by simp [hyc], fun z hz q2 todo => by simp [stepGoroutine, waitSelect, hz]⟩

/-- Witness of C11: on a barrier of capacity 4 the announcement of channel 7
registers and three dependents arrive at the select, all on channel 0 and all
blocked; after the one release of the announcement each of them can return. -/
theorem broadcast_fan_out_witness :
    InitJobDependancies idKeys false annA fresh2 = some registeredA ∧
    [Job.ChannelUpdate 7, .NodeAnnouncement 1, .LightningNode 2].map
      (fun d => waitSwitch idKeys d registeredA) = [some 0, some 0, some 0] ∧
    (run idKeys fanSystem fanWaiting).map
      (fun s => (s.goroutines.map (fun g => g.pc), s.v.closed 0,
        [step idKeys s (.run 1 false), step idKeys s (.run 2 false),
          step idKeys s (.run 3 false)].map Option.isSome)) =
      some ([.idle, .waitSelect 0, .waitSelect 0, .waitSelect 0], false,
        [false, false, false]) ∧
    (run idKeys fanSystem (fanWaiting ++ fanRelease)).map
      (fun s => (s.goroutines.map (fun g => g.pc), s.v.closed 0,
        [step idKeys s (.run 1 false), step idKeys s (.run 2 false),
          step idKeys s (.run 3 false)].map Option.isSome)) =
      some ([.idle, .waitSelect 0, .waitSelect 0, .waitSelect 0], true,
        [true, true, true]) :=
  have h := broadcast_fan_out idKeys fresh2 registeredA annA 7 1 2 false (Or.inl rfl) rfl rfl
  ⟨rfl,
    h.2.1 [.ChannelUpdate 7, .NodeAnnouncement 1, .LightningNode 2] (by
      intro d hd
      simp only [List.mem_cons, List.mem_singleton, List.not_mem_nil, or_false] at hd
      rcases hd with rfl | rfl | rfl
      · exact Or.inl rfl
      · exact Or.inr (Or.inr ⟨1, Or.inl rfl, Or.inl rfl⟩)
      · exact Or.inr (Or.inr ⟨2, Or.inr rfl, Or.inr rfl⟩)),
    by rfl, by rfl⟩

/-! ## Release of a dependent -/

/-- C12 (release of a dependent). In every state, `SignalDependants` on a
`ChannelUpdate` or `ChannelEdgePolicy` with channel key `k` returns, removes
the entry of `k` from `chanEdgeDependancies` and changes nothing else; on a
`NodeAnnouncement` or `LightningNode` with vertex `NewVertex n` it returns,
removes the entry of that vertex from `nodeAnnDependancies` and changes
nothing else. No channel is closed, `chanAnnFinSignal` and the slot count are
as before, whatever the state of the signal that the entry held. -/
theorem signalDependants_dependent_delete (K : Keys) (v : ValidationBarrier) :
    (∀ d k, (d = .ChannelUpdate k ∨
        ∃ c, K.NewShortChanIDFromInt c = k ∧ d = .ChannelEdgePolicy c) →
      ∃ u, SignalDependants K d v = some u ∧
        u.chanEdgeDependancies k = none ∧
        (∀ k2, k2 ≠ k → u.chanEdgeDependancies k2 = v.chanEdgeDependancies k2) ∧
        u.nodeAnnDependancies = v.nodeAnnDependancies ∧
        u.chanAnnFinSignal = v.chanAnnFinSignal ∧
        u.closed = v.closed ∧ u.made = v.made ∧
        u.validationSemaphore = v.validationSemaphore ∧ u.semCap = v.semCap ∧
        u.quit = v.quit ∧ u.locked = v.locked) ∧
    (∀ d n, (d = .NodeAnnouncement n ∨ d = .LightningNode n) →
      ∃ u, SignalDependants K d v = some u ∧
        u.nodeAnnDependancies (K.NewVertex n) = none ∧
        (∀ x, x ≠ K.NewVertex n → u.nodeAnnDependancies x = v.nodeAnnDependancies x) ∧
        u.chanEdgeDependancies = v.chanEdgeDependancies ∧
        u.chanAnnFinSignal = v.chanAnnFinSignal ∧
        u.closed = v.closed ∧ u.made = v.made ∧
        u.validationSemaphore = v.validationSemaphore ∧ u.semCap = v.semCap ∧
        u.quit = v.quit ∧ u.locked = v.locked) := by
  refine ⟨?_, ?_⟩
  · rintro d k (rfl | ⟨c, rfl, rfl⟩) <;>
      exact ⟨_, rfl, by simp, fun k2 hk2 => by simp [Function.update_apply, hk2],
        rfl, rfl, rfl, rfl, rfl, rfl, rfl, rfl⟩
  · rintro d n (rfl | rfl) <;>
      exact ⟨_, rfl, by simp, fun x hx => by simp [Function.update_apply, hx],
        rfl, rfl, rfl, rfl, rfl, rfl, rfl, rfl⟩

/-- Witness of C12: in `registeredA` channel 0 is open and is the entry of
key 7; the release of an update of channel 7 removes the entry from
`chanEdgeDependancies` and leaves channel 0 open and registered. -/
theorem signalDependants_dependent_delete_witness :
    registeredA.chanEdgeDependancies 7 = some 0 ∧ registeredA.closed 0 = false ∧
    (SignalDependants idKeys (.ChannelUpdate 7) registeredA).map
      (fun u => (u.chanEdgeDependancies 7, u.chanAnnFinSignal 7, u.closed 0,
        u.nodeAnnDependancies 1)) = some (none, some 0, false, some 0) := by
  obtain ⟨u, hu, he, -, hn, ha, hc, -⟩ :=
    (signalDependants_dependent_delete idKeys registeredA).1 (.ChannelUpdate 7) 7 (Or.inl rfl)
  rw [hu]
  simp only [Option.map_some', he, hn, ha, hc]
  exact ⟨rfl, rfl, rfl⟩

/-! ## Jobs without coordination -/

/-- C13 (independent, unrecognized and dependent jobs at registration). For
an `AnnounceSignatures` job and for a job of a kind that no type switch names,
the type switch of `InitJobDependancies` leaves the barrier as it is, so the
call does what its select does and no more; `WaitForDependants` looks nothing
up and returns at once in every state; `SignalDependants` returns the barrier
unchanged. For a job of one of the four dependent kinds the type switch of
`InitJobDependancies` leaves the barrier as it is as well. In all these cases
a call of `InitJobDependancies` that returns has changed at most the slot
count, by taking one slot. -/
theorem independent_jobs_no_coordination (K : Keys) (v : ValidationBarrier) :
    (∀ job, (job = .AnnounceSignatures ∨ job = .Other) →
      waitSwitch K job v = none ∧ WaitForDependants K job v = some v ∧
      (∀ q todo, stepGoroutine K q v ⟨todo, .waitSwitch job⟩ =
        some (Unlock v, ⟨todo, .idle⟩)) ∧
      SignalDependants K job v = some v) ∧
    (∀ job, (job = .AnnounceSignatures ∨ job = .Other ∨ IsDependentKind job) →
      initSwitch K job v = v ∧
      (∀ q, InitJobDependancies K q job v = initSelect q v) ∧
      (∀ q u, InitJobDependancies K q job v = some u →
        SameRegistry v u ∧
        (u.validationSemaphore = v.validationSemaphore ∨
          u.validationSemaphore = v.validationSemaphore - 1))) := by
  have hinit : ∀ job, (job = .AnnounceSignatures ∨ job = .Other ∨ IsDependentKind job) →
      ∀ w, initSwitch K job w = w := by
    rintro job (rfl | rfl | ⟨c, rfl⟩ | ⟨k, rfl⟩ | ⟨n, rfl⟩ | ⟨n, rfl⟩) w <;> rfl
  refine ⟨?_, fun job hjob => ?_⟩
  · rintro job (rfl | rfl) <;>
      exact ⟨rfl, rfl, fun q todo => rfl, rfl⟩
  · have hcall : ∀ q, InitJobDependancies K q job v = initSelect q v := by
      intro q
      unfold InitJobDependancies
      cases hsel : initSelect q v with
      | none => rfl
      | some w => simp [hinit job hjob w]
    refine ⟨hinit job hjob v, hcall, fun q u hu => ?_⟩
    rw [hcall q] at hu
    rcases initSelect_some hu with rfl | rfl
    · exact ⟨⟨rfl, rfl, rfl, rfl, rfl⟩, Or.inl rfl⟩
    · exact ⟨⟨rfl, rfl, rfl, rfl, rfl⟩, Or.inr rfl⟩

/-- Witness of C13: on the state in which channel 7 is registered, a signature
bundle is admitted by taking the one free slot, finds nothing to wait for, and
its release changes nothing. -/
theorem independent_jobs_no_coordination_witness :
    registeredA.validationSemaphore = 1 ∧
    (InitJobDependancies idKeys false .AnnounceSignatures registeredA).map
      (fun u => (u.validationSemaphore, u.chanAnnFinSignal 7, u.made)) =
      some (0, some 0, 1) ∧
    WaitForDependants idKeys .AnnounceSignatures registeredA = some registeredA ∧
    SignalDependants idKeys .Other registeredA = some registeredA :=
  have h := independent_jobs_no_coordination idKeys registeredA
  ⟨rfl, by rw [(h.2 .AnnounceSignatures (Or.inl rfl)).2.1 false]; rfl,
    (h.1 .AnnounceSignatures (Or.inl rfl)).2.1, (h.1 .Other (Or.inr rfl)).2.2.2⟩

/-! ## Registration and the way admission ended -/

theorem initSwitch_registry (K : Keys) (job : Job) (v w : ValidationBarrier)
    (h : SameRegistry v w) : SameRegistry (initSwitch K job v) (initSwitch K job w) := by
  obtain ⟨ha, he, hn, hm, hc⟩ := h
  have chan : ∀ k n1 n2, IsChanAnn K job k n1 n2 →
      SameRegistry (initSwitch K job v) (initSwitch K job w) := by
    intro k n1 n2 hjob
    cases hv : v.chanAnnFinSignal k with
    | some s =>
      have hw : w.chanAnnFinSignal k = some s := by rw [ha]; exact hv
      rw [initSwitch_present K v job k n1 n2 hjob hv,
        initSwitch_present K w job k n1 n2 hjob hw]
      exact ⟨ha, he, hn, hm, hc⟩
    | none =>
      have hw : w.chanAnnFinSignal k = none := by rw [ha]; exact hv
      rw [initSwitch_fresh K v job k n1 n2 hjob hv, initSwitch_fresh K w job k n1 n2 hjob hw]
      simp only [SameRegistry, ha, he, hn, hm, hc, and_self]
  cases job with
  | ChannelAnnouncement k n1 n2 => exact chan k n1 n2 (Or.inl rfl)
  | ChannelEdgeInfo c n1 n2 => exact chan _ n1 n2 (Or.inr ⟨c, rfl, rfl⟩)
  | _ => exact ⟨ha, he, hn, hm, hc⟩

theorem initSelect_registry {q : Bool} {v u : ValidationBarrier}
    (h : initSelect q v = some u) : SameRegistry v u := by
  rcases initSelect_some h with rfl | rfl <;> exact ⟨rfl, rfl, rfl, rfl, rfl⟩

/-- C18 (registration does not depend on how admission ended). For every
state and every job, a call of `InitJobDependancies` that returns leaves the
three maps and the heap of channels that the type switch alone yields on the
prior state, whichever case its select took; so a call that took a slot and a
call that left through `quit` end with the same maps, and the goroutine after
the select is the same in both cases. In particular, with `quit` closed, a
channel announcement for a key without entry that leaves the select through
the quit case keeps the slot count and still installs its new channel under
the channel key in both channel maps and under both endpoint vertices. -/
theorem registration_independent_of_admission (K : Keys) (job : Job)
    (v : ValidationBarrier) :
    (∀ q u, InitJobDependancies K q job v = some u →
      SameRegistry (initSwitch K job v) u) ∧
    (∀ u1 u2, InitJobDependancies K false job v = some u1 →
      InitJobDependancies K true job v = some u2 → SameRegistry u1 u2) ∧
    (∀ q rest w g2, stepGoroutine K q v ⟨.InitJobDependancies job :: rest, .idle⟩ =
        some (w, g2) → g2 = ⟨rest, .initLock job⟩ ∧ SameRegistry v w) ∧
    (∀ k n1 n2, IsChanAnn K job k n1 n2 → v.chanAnnFinSignal k = none → v.quit = true →
      ∃ u, InitJobDependancies K true job v = some u ∧
        u.validationSemaphore = v.validationSemaphore ∧
        u.chanAnnFinSignal k = some v.made ∧ u.chanEdgeDependancies k = some v.made ∧
        u.nodeAnnDependancies (K.NewVertex n1) = some v.made ∧
        u.nodeAnnDependancies (K.NewVertex n2) = some v.made ∧
        u.closed v.made = false) := by
  have hall : ∀ q u, InitJobDependancies K q job v = some u →
      SameRegistry (initSwitch K job v) u := by
    intro q u hu
    unfold InitJobDependancies at hu
    obtain ⟨v1, hsel, rfl⟩ := Option.map_eq_some'.mp hu
    exact initSwitch_registry K job v v1 (initSelect_registry hsel)
  refine ⟨hall, fun u1 u2 h1 h2 => ?_, fun q rest w g2 hstep => ?_, ?_⟩
  · obtain ⟨a1, e1, n1, m1, c1⟩ := hall false u1 h1
    obtain ⟨a2, e2, n2, m2, c2⟩ := hall true u2 h2
    exact ⟨a2.trans a1.symm, e2.trans e1.symm, n2.trans n1.symm, m2.trans m1.symm,
      c2.trans c1.symm⟩
  · simp only [stepGoroutine, Option.map_eq_some', Prod.mk.injEq] at hstep
    obtain ⟨a, ha, rfl, rfl⟩ := hstep
    exact ⟨rfl, initSelect_registry ha⟩
  · intro k n1 n2 hjob hfresh hquit
    have hcall : InitJobDependancies K true job v = some (initSwitch K job v) := by
      simp [InitJobDependancies, initSelect, hquit]
    obtain ⟨ha, he, h1, h2, hc, -, -⟩ :=
      initJobDependancies_fresh_entries K v _ job k n1 n2 true hjob hfresh hcall
    exact ⟨_, hcall, (initSwitch_frame K job v).1, ha, he, h1, h2, hc⟩

/-- Witness of C18: with `quit` closed and the slot free, the announcement of
channel 7 registers channel 0 under the four keys whether its select takes
the slot or leaves through `quit`; only the slot count differs. -/
theorem registration_independent_of_admission_witness :
    (InitJobDependancies idKeys false annA shutDownFree).map
      (fun u => (u.validationSemaphore, u.chanAnnFinSignal 7, u.chanEdgeDependancies 7,
        u.nodeAnnDependancies 1, u.nodeAnnDependancies 2)) =
      some (0, some 0, some 0, some 0, some 0) ∧
    (InitJobDependancies idKeys true annA shutDownFree).map
      (fun u => (u.validationSemaphore, u.chanAnnFinSignal 7, u.chanEdgeDependancies 7,
        u.nodeAnnDependancies 1, u.nodeAnnDependancies 2)) =
      some (1, some 0, some 0, some 0, some 0) := by
  obtain ⟨u, hu, hs, ha, he, h1, h2, -⟩ :=
    (registration_independent_of_admission idKeys annA shutDownFree).2.2.2 7 1 2
      (Or.inl rfl) rfl rfl
  refine ⟨rfl, ?_⟩
  rw [hu]
  simp only [Option.map_some', hs, ha, he]
  exact congrArg some (by
    show (shutDownFree.validationSemaphore, some shutDownFree.made, some shutDownFree.made,
      u.nodeAnnDependancies 1, u.nodeAnnDependancies 2) = _
    rw [show u.nodeAnnDependancies 1 = some shutDownFree.made from h1,
      show u.nodeAnnDependancies 2 = some shutDownFree.made from h2]
    rfl)

/-! ## Overlapping registrations -/

/-- C16 (a node entry tracks only the latest registration). Capacity 3,
`quit` open. Channel 7 (nodes 1 and 2) registers channel 0, then channel 8
(nodes 1 and 3) registers channel 1 and overwrites `nodeAnnDependancies[1]`.
The announcement of node 1 then calls `WaitForDependants`, selects channel 1
and is blocked. Once the announcement of channel 8 has called
`SignalDependants` the node announcement can return, and does, although the
announcement of channel 7 has not called `SignalDependants` and channel 0 is
still open. -/
theorem node_entry_tracks_latest_registration :
    (run idKeys overwriteSystem overwriteWaiting).map
      (fun s => (s.v.chanAnnFinSignal 7, s.v.chanAnnFinSignal 8, s.v.nodeAnnDependancies 1,
        s.goroutines.map (fun g => g.pc), (step idKeys s (.run 2 false)).isSome,
        s.v.quit)) =
      some (some 0, some 1, some 1, [.idle, .idle, .waitSelect 1], false, false) ∧
    (run idKeys overwriteSystem (overwriteWaiting ++ overwriteRelease)).map
      (fun s => (s.v.closed 0, s.v.closed 1, s.v.chanAnnFinSignal 7,
        (step idKeys s (.run 2 false)).isSome, s.v.quit)) =
      some (false, true, some 0, true, false) ∧
    (run idKeys overwriteSystem (overwriteWaiting ++ overwriteRelease ++ [.run 2 false])).map
      (fun s => (s.goroutines, s.v.closed 0, s.v.quit)) =
      some ([⟨[.WaitForDependants annA, .SignalDependants annA, .CompleteJob], .idle⟩,
          ⟨[.CompleteJob], .idle⟩,
          ⟨[.SignalDependants nodeX, .CompleteJob], .idle⟩], false, false) := by
  refine ⟨by rfl, by rfl, by rfl⟩

/-- C17 (a release fires the signal that is registered when it runs).
Capacity 3. Two announcements of channel 7 register and share channel 0; the
first releases, which closes channel 0 and removes the entry of key 7; a third
announcement of channel 7 registers and makes channel 1; then the second
announcement releases: this closes channel 1 and removes the entry of key 7,
although the third announcement has not called `SignalDependants`. -/
theorem release_fires_current_signal :
    (run idKeys tripleSystem tripleBoth).map
      (fun s => (s.v.chanAnnFinSignal 7, s.v.made, s.v.closed 0)) =
      some (some 0, 1, false) ∧
    (run idKeys tripleSystem (tripleBoth ++ tripleFirstRelease)).map
      (fun s => (s.v.chanAnnFinSignal 7, s.v.made, s.v.closed 0)) =
      some (none, 1, true) ∧
    (run idKeys tripleSystem (tripleBoth ++ tripleFirstRelease ++ tripleThird)).map
      (fun s => (s.v.chanAnnFinSignal 7, s.v.made, s.v.closed 0, s.v.closed 1)) =
      some (some 1, 2, true, false) ∧
    (run idKeys tripleSystem
        (tripleBoth ++ tripleFirstRelease ++ tripleThird ++ tripleSecondRelease)).map
      (fun s => (s.v.chanAnnFinSignal 7, s.v.made, s.v.closed 0, s.v.closed 1,
        s.goroutines)) =
      some (none, 2, true, true,
        [⟨[.CompleteJob], .idle⟩, ⟨[.CompleteJob], .idle⟩,
          ⟨[.WaitForDependants annA, .SignalDependants annA, .CompleteJob], .idle⟩]) := by
  refine ⟨by rfl, by rfl, by rfl, by rfl⟩

/-! ## Lock discipline -/

theorem lock_some_free {v u : ValidationBarrier} (h : Lock v = some u) :
    v.locked = false ∧ u.locked = true := by
  unfold Lock at h
  split at h
  · simp at h
  · rename_i hl
    simp only [Option.some.injEq] at h
    rw [← h]
    exact ⟨by simpa using hl, rfl⟩

theorem countP_eq_sum {α : Type} (p : α → Bool) :
    ∀ (l : List α), l.countP p = (l.map (fun a => if p a = true then 1 else 0)).sum := by
  intro l
  induction l with
  | nil => rfl
  | cons a rest ih =>
    simp only [List.countP_cons, List.map_cons, List.sum_cons, ih]
    omega

theorem stepGoroutine_select (K : Keys) (q : Bool) (v w : ValidationBarrier)
    (g g2 : Goroutine) (hsel : atSelect g = true)
    (hstep : stepGoroutine K q v g = some (w, g2)) :
    w.locked = v.locked ∧ holdsMutex g = false ∧ holdsMutex g2 = false ∧
    (g2.pc = .idle ∨ ∃ job, g2.pc = .initLock job) := by
  obtain ⟨todo, pc⟩ := g
  cases pc with
  | idle =>
    cases todo with
    | nil => simp [stepGoroutine] at hstep
    | cons c rest =>
      cases c with
      | InitJobDependancies job =>
        simp only [stepGoroutine, Option.map_eq_some', Prod.mk.injEq] at hstep
        obtain ⟨a, ha, rfl, rfl⟩ := hstep
        rcases initSelect_some ha with rfl | rfl <;>
          exact ⟨rfl, rfl, rfl, Or.inr ⟨job, rfl⟩⟩
      | CompleteJob =>
        simp only [stepGoroutine, Option.map_eq_some', Prod.mk.injEq] at hstep
        obtain ⟨a, ha, rfl, rfl⟩ := hstep
        rcases completeJob_some ha with rfl | rfl <;> exact ⟨rfl, rfl, rfl, Or.inl rfl⟩
      | WaitForDependants job => simp [atSelect] at hsel
      | SignalDependants job => simp [atSelect] at hsel
  | waitSelect signal =>
    simp only [stepGoroutine] at hstep
    split at hstep
    · simp only [Option.some.injEq, Prod.mk.injEq] at hstep
      obtain ⟨rfl, rfl⟩ := hstep
      exact ⟨rfl, rfl, rfl, Or.inl rfl⟩
    · simp at hstep
  | initLock job => simp [atSelect] at hsel
  | initSwitch job => simp [atSelect] at hsel
  | waitSwitch job => simp [atSelect] at hsel
  | signalSwitch job => simp [atSelect] at hsel

theorem stepGoroutine_lock (K : Keys) (q : Bool) (v w : ValidationBarrier)
    (g g2 : Goroutine) (hlock : atLock g = true)
    (hstep : stepGoroutine K q v g = some (w, g2)) :
    v.locked = false ∧ w.locked = true ∧ holdsMutex g = false ∧ holdsMutex g2 = true := by
  obtain ⟨todo, pc⟩ := g
  cases pc with
  | idle =>
    cases todo with
    | nil => simp [stepGoroutine] at hstep
    | cons c rest =>
      cases c with
      | InitJobDependancies job => simp [atLock] at hlock
      | CompleteJob => simp [atLock] at hlock
      | WaitForDependants job =>
        simp only [stepGoroutine, Option.map_eq_some', Prod.mk.injEq] at hstep
        obtain ⟨a, ha, rfl, rfl⟩ := hstep
        exact ⟨(lock_some_free ha).1, (lock_some_free ha).2, rfl, rfl⟩
      | SignalDependants job =>
        simp only [stepGoroutine, Option.map_eq_some', Prod.mk.injEq] at hstep
        obtain ⟨a, ha, rfl, rfl⟩ := hstep
        exact ⟨(lock_some_free ha).1, (lock_some_free ha).2, rfl, rfl⟩
  | initLock job =>
    simp only [stepGoroutine, Option.map_eq_some', Prod.mk.injEq] at hstep
    obtain ⟨a, ha, rfl, rfl⟩ := hstep
    exact ⟨(lock_some_free ha).1, (lock_some_free ha).2, rfl, rfl⟩
  | waitSelect signal => simp [atLock] at hlock
  | initSwitch job => simp [atLock] at hlock
  | waitSwitch job => simp [atLock] at hlock
  | signalSwitch job => simp [atLock] at hlock

theorem stepGoroutine_holder (K : Keys) (q : Bool) (v : ValidationBarrier) (g : Goroutine)
    (hwf : Allocated v ∧ PendingOpen v) (hhold : holdsMutex g = true) :
    ∃ w g2, stepGoroutine K q v g = some (w, g2) ∧ w.locked = false ∧
      holdsMutex g2 = false ∧ g2.todo = g.todo ∧
      (g2.pc = .idle ∨ ∃ signal, g2.pc = .waitSelect signal) := by
  obtain ⟨todo, pc⟩ := g
  cases pc with
  | idle => simp [holdsMutex] at hhold
  | initLock job => simp [holdsMutex] at hhold
  | waitSelect signal => simp [holdsMutex] at hhold
  | initSwitch job => exact ⟨_, _, rfl, rfl, rfl, rfl, Or.inl rfl⟩
  | waitSwitch job =>
    cases hw : waitSwitch K job v with
    | none =>
      exact ⟨Unlock v, ⟨todo, .idle⟩, by simp [stepGoroutine, hw], rfl, rfl, rfl,
        Or.inl rfl⟩
    | some signal =>
      exact ⟨Unlock v, ⟨todo, .waitSelect signal⟩, by simp [stepGoroutine, hw], rfl, rfl,
        rfl, Or.inr ⟨signal, rfl⟩⟩
  | signalSwitch job =>
    obtain ⟨u, hu, -⟩ := wellFormed_signalDependants K job v hwf
    exact ⟨Unlock u, ⟨todo, .idle⟩, by simp [stepGoroutine, hu], rfl, rfl, rfl, Or.inl rfl⟩

theorem stepGoroutine_kinds (g : Goroutine) :
    atSelect g = true ∨ atLock g = true ∨ holdsMutex g = true ∨
      (g.pc = .idle ∧ g.todo = []) := by
  obtain ⟨todo, pc⟩ := g
  cases pc with
  | idle =>
    cases todo with
    | nil => exact Or.inr (Or.inr (Or.inr ⟨rfl, rfl⟩))
    | cons c rest =>
      cases c with
      | InitJobDependancies job => exact Or.inl rfl
      | CompleteJob => exact Or.inl rfl
      | WaitForDependants job => exact Or.inr (Or.inl rfl)
      | SignalDependants job => exact Or.inr (Or.inl rfl)
  | initLock job => exact Or.inr (Or.inl rfl)
  | waitSelect signal => exact Or.inl rfl
  | initSwitch job => exact Or.inr (Or.inr (Or.inl rfl))
  | waitSwitch job => exact Or.inr (Or.inr (Or.inl rfl))
  | signalSwitch job => exact Or.inr (Or.inr (Or.inl rfl))

theorem stepGoroutine_release (K : Keys) (q : Bool) (v w : ValidationBarrier)
    (g g2 : Goroutine) (hhold : holdsMutex g = true)
    (hstep : stepGoroutine K q v g = some (w, g2)) :
    w.locked = false ∧ holdsMutex g2 = false := by
  obtain ⟨todo, pc⟩ := g
  cases pc with
  | idle => simp [holdsMutex] at hhold
  | initLock job => simp [holdsMutex] at hhold
  | waitSelect signal => simp [holdsMutex] at hhold
  | initSwitch job =>
    simp only [stepGoroutine, Option.some.injEq, Prod.mk.injEq] at hstep
    obtain ⟨rfl, rfl⟩ := hstep
    exact ⟨rfl, rfl⟩
  | waitSwitch job =>
    simp only [stepGoroutine] at hstep
    split at hstep <;>
      · simp only [Option.some.injEq, Prod.mk.injEq] at hstep
        obtain ⟨rfl, rfl⟩ := hstep
        exact ⟨rfl, rfl⟩
  | signalSwitch job =>
    simp only [stepGoroutine, Option.map_eq_some', Prod.mk.injEq] at hstep
    obtain ⟨a, -, rfl, rfl⟩ := hstep
    exact ⟨rfl, rfl⟩

theorem step_mutexCount (K : Keys) (s t : System) (a : Action)
    (hinv : s.goroutines.countP holdsMutex = mutexCount s.v)
    (hstep : step K s a = some t) :
    t.goroutines.countP holdsMutex = mutexCount t.v := by
  rw [countP_eq_sum] at hinv ⊢
  cases a with
  | run i q =>
    simp only [step] at hstep
    split at hstep
    · simp at hstep
    · rename_i g hg
      simp only [Option.map_eq_some'] at hstep
      obtain ⟨⟨w, g2⟩, hr, rfl⟩ := hstep
      have e := sum_map_set (fun a => if holdsMutex a = true then 1 else 0)
        s.goroutines i g g2 hg
      simp only at e ⊢
      rcases stepGoroutine_kinds g with hk | hk | hk | ⟨hpc, htodo⟩
      · obtain ⟨hl, h1, h2, -⟩ := stepGoroutine_select K q s.v w g g2 hk hr
        simp only [h1, h2, Bool.false_eq_true, if_false] at e
        simp only [mutexCount, hl] at hinv ⊢
        omega
      · obtain ⟨hv, hw, h1, h2⟩ := stepGoroutine_lock K q s.v w g g2 hk hr
        simp only [h1, h2, Bool.false_eq_true, if_false, if_true] at e
        simp only [mutexCount, hv, hw, Bool.false_eq_true, if_false, if_true] at hinv ⊢
        omega
      · obtain ⟨hw, h2⟩ := stepGoroutine_release K q s.v w g g2 hk hr
        simp only [hk, h2, Bool.false_eq_true, if_false, if_true] at e
        simp only [mutexCount, hw, Bool.false_eq_true, if_false] at hinv ⊢
        split at hinv <;> omega
      · obtain ⟨todo, pc⟩ := g
        simp only at hpc htodo
        subst hpc htodo
        simp [stepGoroutine] at hr
  | handoff i j =>
    simp only [step] at hstep
    split at hstep
    · rename_i hcond
      split at hstep
      · rename_i rest job rest2 hi hj
        simp only [Option.some.injEq] at hstep
        subst hstep
        have hj2 : (s.goroutines.set i ⟨rest, .idle⟩)[j]? =
            some ⟨.InitJobDependancies job :: rest2, .idle⟩ := by
          rw [List.getElem?_set_ne hcond.2]; exact hj
        have e1 := sum_map_set (fun a => if holdsMutex a = true then 1 else 0)
          s.goroutines i _ ⟨rest, .idle⟩ hi
        have e2 := sum_map_set (fun a => if holdsMutex a = true then 1 else 0)
          _ j _ ⟨rest2, .initLock job⟩ hj2
        simp only [holdsMutex, Bool.false_eq_true, if_false] at e1 e2
        simp only [holdsMutex] at hinv ⊢
        omega
      · simp at hstep
    · simp at hstep
  | closeQuit =>
    simp only [step] at hstep
    split at hstep
    · simp at hstep
    · simp only [Option.some.injEq] at hstep
      subst hstep
      exact hinv

theorem run_mutexCount (K : Keys) (acts : List Action) :
    ∀ (s t : System), s.goroutines.countP holdsMutex = mutexCount s.v →
      run K s acts = some t → t.goroutines.countP holdsMutex = mutexCount t.v := by
  induction acts with
  | nil =>
    intro s t h hrun
    simp only [run, Option.some.injEq] at hrun
    rw [← hrun]
    exact h
  | cons a rest ih =>
    intro s t h hrun
    simp only [run, Option.bind_eq_some] at hrun
    obtain ⟨m, hm, hrest⟩ := hrun
    exact ih m t (step_mutexCount K s m a h hm) hrest

/-- C14 (lock discipline). In every state reachable from a fresh barrier, the
mutex is held exactly when one goroutine stands between a `Lock` and the
`Unlock` that follows it, and no two do; such a goroutine is never blocked,
its next step releases the mutex and takes it to the end of its call or to
the select of `WaitForDependants`, whatever the job; in particular when no
goroutine is inside a critical section the mutex is free. In every state
whatsoever, a step that is a select (the first step of `InitJobDependancies`,
the whole of `CompleteJob`, the last step of `WaitForDependants`) is taken by
a goroutine that does not hold the mutex and leaves the mutex as it is, the
select of `InitJobDependancies` leading to its `Lock`; a step that is a `Lock`
finds the mutex free and takes it; and every goroutine that can move is at a
select, at a `Lock`, or holds the mutex. -/
theorem lock_discipline (K : Keys) (n : Nat) (s : System) (hreach : Reachable K n s) :
    s.goroutines.countP holdsMutex = (if s.v.locked = true then 1 else 0) ∧
    ((∀ g ∈ s.goroutines, holdsMutex g = false) → s.v.locked = false) ∧
    (∀ i g q, s.goroutines[i]? = some g → holdsMutex g = true →
      s.v.locked = true ∧
      ∃ w g2, step K s (.run i q) = some ⟨w, s.goroutines.set i g2⟩ ∧
        w.locked = false ∧ holdsMutex g2 = false ∧ g2.todo = g.todo ∧
        (g2.pc = .idle ∨ ∃ signal, g2.pc = .waitSelect signal)) ∧
    (∀ q v w g g2, atSelect g = true → stepGoroutine K q v g = some (w, g2) →
      w.locked = v.locked ∧ holdsMutex g = false ∧ holdsMutex g2 = false ∧
      (g2.pc = .idle ∨ ∃ job, g2.pc = .initLock job)) ∧
    (∀ q v w g g2, atLock g = true → stepGoroutine K q v g = some (w, g2) →
      v.locked = false ∧ w.locked = true ∧ holdsMutex g = false ∧ holdsMutex g2 = true) ∧
    (∀ g : Goroutine, atSelect g = true ∨ atLock g = true ∨ holdsMutex g = true ∨
      (g.pc = .idle ∧ g.todo = [])) := by
  have hwf := reachable_wellFormed K n s hreach
  have hcount : s.goroutines.countP holdsMutex = mutexCount s.v := by
    obtain ⟨q, gs, acts, hidle, hrun⟩ := hreach
    refine run_mutexCount K acts _ s ?_ hrun
    have : gs.countP holdsMutex = 0 := by
      rw [List.countP_eq_zero]
      intro g hg
      simp [holdsMutex, hidle g hg]
    simpa [mutexCount, NewValidationBarrier] using this
  refine ⟨hcount, fun hnone => ?_, fun i g q hg hhold => ?_,
    fun q v w g g2 => stepGoroutine_select K q v w g g2,
    fun q v w g g2 => stepGoroutine_lock K q v w g g2, stepGoroutine_kinds⟩
  · have hzero : s.goroutines.countP holdsMutex = 0 := by
      rw [List.countP_eq_zero]
      intro g hg
      simp [hnone g hg]
    rw [hcount] at hzero
    cases hl : s.v.locked with
    | false => rfl
    | true => simp [mutexCount, hl] at hzero
  · have hpos : 0 < s.goroutines.countP holdsMutex :=
      List.countP_pos_iff.mpr ⟨g, List.getElem?_mem hg, hhold⟩
    have hlocked : s.v.locked = true := by
      cases hl : s.v.locked with
      | true => rfl
      | false => rw [hcount] at hpos; simp [mutexCount, hl] at hpos
    obtain ⟨w, g2, hstep, hw, h2, htodo, hpc⟩ := stepGoroutine_holder K q s.v g hwf hhold
    exact ⟨hlocked, w, g2, by simp [step, hg, hstep], hw, h2, htodo, hpc⟩

/-- Witness of C14: the one job of `soloSystem` has taken the token and the
mutex; the state is reachable, the mutex is held and one goroutine holds it. -/
theorem lock_discipline_witness :
    run idKeys soloSystem [.run 0 false, .run 0 false] = some soloLocked ∧
    soloLocked.v.locked = true ∧ soloLocked.goroutines.countP holdsMutex = 1 ∧
    (step idKeys soloLocked (.run 0 false)).map
      (fun t => (t.v.locked, t.goroutines.map (fun g => g.pc))) = some (false, [.idle]) := by
  have hrun : run idKeys soloSystem [.run 0 false, .run 0 false] = some soloLocked := rfl
  have h := lock_discipline idKeys 1 soloLocked
    ⟨false, _, [.run 0 false, .run 0 false], soloSystem_jobs |> fun h g hg => (h g hg).1, hrun⟩
  exact ⟨hrun, rfl, h.1, rfl⟩

/-! ## Pending signals stay registered -/

theorem tracked_congr {v w : ValidationBarrier} {r : Signal → Option ShortChannelID}
    (h : SameRegistry v w) (ht : Tracked v r) : Tracked w r := by
  obtain ⟨ha, he, hn, hm, hc⟩ := h
  unfold Tracked at *
  rw [ha, he, hn, hm, hc]
  exact ht

theorem tracked_register (v : ValidationBarrier) (r : Signal → Option ShortChannelID)
    (k : ShortChannelID) (x1 x2 : Vertex) (hfresh : v.chanAnnFinSignal k = none)
    (ht : Tracked v r) :
    Tracked
      { v with
        made := v.made + 1
        closed := Function.update v.closed v.made false
        chanAnnFinSignal := Function.update v.chanAnnFinSignal k (some v.made)
        chanEdgeDependancies := Function.update v.chanEdgeDependancies k (some v.made)
        nodeAnnDependancies :=
          Function.update (Function.update v.nodeAnnDependancies x1 (some v.made))
            x2 (some v.made) }
      (Function.update r v.made (some k)) := by
  obtain ⟨hr, ha, ho, he, hn⟩ := ht
  have keep : ∀ {sig : Nat}, sig < v.made →
      Function.update r v.made (some k) sig = r sig := fun h => by
    rw [Function.update_apply, if_neg (Nat.ne_of_lt h)]
  have keepc : ∀ {sig : Nat}, sig < v.made →
      Function.update v.closed v.made false sig = v.closed sig := fun h => by
    rw [Function.update_apply, if_neg (Nat.ne_of_lt h)]
  refine ⟨?_, ?_, ?_, ?_, ?_⟩
  · intro sig hsig
    by_cases h : sig = v.made
    · exact ⟨k, by rw [h]; simp⟩
    · have hlt : sig < v.made := by
        have : sig < v.made + 1 := hsig
        omega
      obtain ⟨k2, hk2⟩ := hr sig hlt
      exact ⟨k2, by rw [keep hlt]; exact hk2⟩
  · intro k2 sig hs
    simp only [Function.update_apply] at hs
    split at hs
    · rename_i hk
      cases hs
      exact ⟨by simp [hk], Nat.lt_succ_self _, by simp⟩
    · obtain ⟨h1, h2, h3⟩ := ha k2 sig hs
      exact ⟨by rw [keep h2]; exact h1, Nat.lt_succ_of_lt h2, by
        show Function.update v.closed v.made false sig = false
        rw [keepc h2]; exact h3⟩
  · intro sig hsig hopen
    by_cases h : sig = v.made
    · exact ⟨k, by rw [h]; simp⟩
    · have hlt : sig < v.made := by
        have : sig < v.made + 1 := hsig
        omega
      have hopen2 : v.closed sig = false := by
        have : Function.update v.closed v.made false sig = false := hopen
        rwa [keepc hlt] at this
      obtain ⟨k2, hk2⟩ := ho sig hlt hopen2
      have hne : k2 ≠ k := fun e => by rw [e, hfresh] at hk2; cases hk2
      exact ⟨k2, by simp [Function.update_apply, hne, hk2]⟩
  · intro k2 sig hs
    simp only [Function.update_apply] at hs
    split at hs
    · rename_i hk
      cases hs
      exact ⟨by simp [hk], Nat.lt_succ_self _⟩
    · obtain ⟨h1, h2⟩ := he k2 sig hs
      exact ⟨by rw [keep h2]; exact h1, Nat.lt_succ_of_lt h2⟩
  · intro x sig hs
    simp only [Function.update_apply] at hs
    split at hs
    · cases hs; exact Nat.lt_succ_self _
    · split at hs
      · cases hs; exact Nat.lt_succ_self _
      · exact Nat.lt_succ_of_lt (hn x sig hs)

theorem tracked_initSwitch (K : Keys) (job : Job) (v : ValidationBarrier)
    (r : Signal → Option ShortChannelID) (ht : Tracked v r) :
    Tracked (initSwitch K job v) (recordJob K job v r) ∧
      v.made ≤ (initSwitch K job v).made := by
  have chan : ∀ k n1 n2, IsChanAnn K job k n1 n2 → chanKey K job = some k →
      Tracked (initSwitch K job v) (recordJob K job v r) ∧
        v.made ≤ (initSwitch K job v).made := by
    intro k n1 n2 hjob hkey
    cases hv : v.chanAnnFinSignal k with
    | some s =>
      rw [initSwitch_present K v job k n1 n2 hjob hv]
      simp only [recordJob, hkey, hv]
      exact ⟨ht, Nat.le_refl _⟩
    | none =>
      rw [initSwitch_fresh K v job k n1 n2 hjob hv]
      simp only [recordJob, hkey, hv]
      exact ⟨tracked_register v r k _ _ hv ht, Nat.le_succ _⟩
  cases job with
  | ChannelAnnouncement k n1 n2 => exact chan k n1 n2 (Or.inl rfl) rfl
  | ChannelEdgeInfo c n1 n2 => exact chan _ n1 n2 (Or.inr ⟨c, rfl, rfl⟩) rfl
  | _ => exact ⟨ht, Nat.le_refl _⟩

theorem tracked_delete_edge (v : ValidationBarrier) (r : Signal → Option ShortChannelID)
    (k : ShortChannelID) (ht : Tracked v r) :
    Tracked { v with chanEdgeDependancies := Function.update v.chanEdgeDependancies k none }
      r := by
  obtain ⟨hr, ha, ho, he, hn⟩ := ht
  refine ⟨hr, ha, ho, ?_, hn⟩
  intro k2 sig hs
  simp only [Function.update_apply] at hs
  split at hs
  · cases hs
  · exact he k2 sig hs

theorem tracked_delete_node (v : ValidationBarrier) (r : Signal → Option ShortChannelID)
    (x : Vertex) (ht : Tracked v r) :
    Tracked { v with nodeAnnDependancies := Function.update v.nodeAnnDependancies x none }
      r := by
  obtain ⟨hr, ha, ho, he, hn⟩ := ht
  refine ⟨hr, ha, ho, he, ?_⟩
  intro x2 sig hs
  simp only [Function.update_apply] at hs
  split at hs
  · cases hs
  · exact hn x2 sig hs

theorem tracked_fire (v : ValidationBarrier) (r : Signal → Option ShortChannelID)
    (k : ShortChannelID) (s : Signal) (hs : v.chanAnnFinSignal k = some s)
    (ht : Tracked v r) :
    Tracked
      { v with
        closed := Function.update v.closed s true
        chanAnnFinSignal := Function.update v.chanAnnFinSignal k none } r := by
  obtain ⟨hr, ha, ho, he, hn⟩ := ht
  have hrs : r s = some k := (ha k s hs).1
  refine ⟨hr, ?_, ?_, he, hn⟩
  · intro k2 sig h2
    simp only [Function.update_apply] at h2 ⊢
    split at h2
    · cases h2
    · rename_i hne
      obtain ⟨h1, hlt, hopen⟩ := ha k2 sig h2
      have hsig : sig ≠ s := fun e => by
        rw [e, hrs] at h1
        exact hne (Option.some.inj h1).symm
      exact ⟨h1, hlt, by rw [if_neg hsig]; exact hopen⟩
  · intro sig hlt hopen
    simp only [Function.update_apply] at hopen ⊢
    split at hopen
    · cases hopen
    · rename_i hsig
      obtain ⟨k2, hk2⟩ := ho sig hlt hopen
      have hne : k2 ≠ k := fun e => by
        rw [e, hs] at hk2
        exact hsig (Option.some.inj hk2).symm
      exact ⟨k2, by rw [if_neg hne]; exact hk2⟩

theorem tracked_signalDependants (K : Keys) (job : Job) (v : ValidationBarrier)
    (r : Signal → Option ShortChannelID) (ht : Tracked v r) :
    ∃ u, SignalDependants K job v = some u ∧ Tracked u r ∧ u.made = v.made := by
  have fire : ∀ k, ∃ u,
      (match v.chanAnnFinSignal k with
        | some finSignal =>
          (closeChan finSignal v).map fun (w : ValidationBarrier) =>
            { w with chanAnnFinSignal := Function.update w.chanAnnFinSignal k none }
        | none => some v) = some u ∧ Tracked u r ∧ u.made = v.made := by
    intro k
    cases hv : v.chanAnnFinSignal k with
    | some s =>
      have hopen : v.closed s = false := (ht.2.1 k s hv).2.2
      exact ⟨_, by simp [closeChan, hopen], tracked_fire v r k s hv ht, rfl⟩
    | none => exact ⟨v, rfl, ht, rfl⟩
  cases job with
  | ChannelAnnouncement k n1 n2 =>
    obtain ⟨u, hu, htr, hm⟩ := fire k
    refine ⟨_, ?_, tracked_delete_edge u r k htr, hm⟩
    simp only [SignalDependants]
    rw [hu]
    rfl
  | ChannelEdgeInfo c n1 n2 =>
    obtain ⟨u, hu, htr, hm⟩ := fire (K.NewShortChanIDFromInt c)
    exact ⟨u, hu, htr, hm⟩
  | ChannelEdgePolicy c => exact ⟨_, rfl, tracked_delete_edge v r _ ht, rfl⟩
  | ChannelUpdate k => exact ⟨_, rfl, tracked_delete_edge v r _ ht, rfl⟩
  | NodeAnnouncement n => exact ⟨_, rfl, tracked_delete_node v r _ ht, rfl⟩
  | LightningNode n => exact ⟨_, rfl, tracked_delete_node v r _ ht, rfl⟩
  | AnnounceSignatures => exact ⟨v, rfl, ht, rfl⟩
  | Other => exact ⟨v, rfl, ht, rfl⟩

theorem waitSwitch_allocated (K : Keys) (job : Job) (v : ValidationBarrier)
    (r : Signal → Option ShortChannelID) (ht : Tracked v r) (sig : Signal)
    (h : waitSwitch K job v = some sig) : sig < v.made := by
  obtain ⟨-, -, -, he, hn⟩ := ht
  cases job with
  | ChannelEdgePolicy c => exact (he _ sig h).2
  | ChannelUpdate k => exact (he _ sig h).2
  | LightningNode n => exact hn _ sig h
  | NodeAnnouncement n => exact hn _ sig h
  | ChannelAnnouncement k n1 n2 => simp [waitSwitch] at h
  | ChannelEdgeInfo c n1 n2 => simp [waitSwitch] at h
  | AnnounceSignatures => simp [waitSwitch] at h
  | Other => simp [waitSwitch] at h

theorem stepGoroutine_tracked (K : Keys) (q : Bool) (v w : ValidationBarrier)
    (g g2 : Goroutine) (r : Signal → Option ShortChannelID) (ht : Tracked v r)
    (hstep : stepGoroutine K q v g = some (w, g2)) :
    Tracked w (match g.pc with
      | .initSwitch job => recordJob K job v r
      | _ => r) ∧
    v.made ≤ w.made ∧ (∀ sig, g2.pc = .waitSelect sig → sig < w.made) := by
  have same : ∀ {u : ValidationBarrier}, SameRegistry v u →
      Tracked u r ∧ v.made ≤ u.made := fun h =>
    ⟨tracked_congr h ht, Nat.le_of_eq h.2.2.2.1.symm⟩
  obtain ⟨todo, pc⟩ := g
  cases pc with
  | idle =>
    cases todo with
    | nil => simp [stepGoroutine] at hstep
    | cons c rest =>
      cases c with
      | InitJobDependancies job =>
        simp only [stepGoroutine, Option.map_eq_some', Prod.mk.injEq] at hstep
        obtain ⟨a, ha, rfl, rfl⟩ := hstep
        obtain ⟨h1, h2⟩ := same (initSelect_registry ha)
        exact ⟨h1, h2, fun sig h => by cases h⟩
      | CompleteJob =>
        simp only [stepGoroutine, Option.map_eq_some', Prod.mk.injEq] at hstep
        obtain ⟨a, ha, rfl, rfl⟩ := hstep
        have hreg : SameRegistry v a := by
          rcases completeJob_some ha with rfl | rfl <;> exact ⟨rfl, rfl, rfl, rfl, rfl⟩
        obtain ⟨h1, h2⟩ := same hreg
        exact ⟨h1, h2, fun sig h => by cases h⟩
      | WaitForDependants job =>
        simp only [stepGoroutine, Option.map_eq_some', Prod.mk.injEq] at hstep
        obtain ⟨a, ha, rfl, rfl⟩ := hstep
        rw [lock_some ha]
        exact ⟨tracked_congr ⟨rfl, rfl, rfl, rfl, rfl⟩ ht, Nat.le_refl _,
          fun sig h => by cases h⟩
      | SignalDependants job =>
        simp only [stepGoroutine, Option.map_eq_some', Prod.mk.injEq] at hstep
        obtain ⟨a, ha, rfl, rfl⟩ := hstep
        rw [lock_some ha]
        exact ⟨tracked_congr ⟨rfl, rfl, rfl, rfl, rfl⟩ ht, Nat.le_refl _,
          fun sig h => by cases h⟩
  | initLock job =>
    simp only [stepGoroutine, Option.map_eq_some', Prod.mk.injEq] at hstep
    obtain ⟨a, ha, rfl, rfl⟩ := hstep
    rw [lock_some ha]
    exact ⟨tracked_congr ⟨rfl, rfl, rfl, rfl, rfl⟩ ht, Nat.le_refl _,
      fun sig h => by cases h⟩
  | initSwitch job =>
    simp only [stepGoroutine, Option.some.injEq, Prod.mk.injEq] at hstep
    obtain ⟨rfl, rfl⟩ := hstep
    obtain ⟨h1, h2⟩ := tracked_initSwitch K job v r ht
    exact ⟨tracked_congr ⟨rfl, rfl, rfl, rfl, rfl⟩ h1, h2, fun sig h => by cases h⟩
  | waitSwitch job =>
    simp only [stepGoroutine] at hstep
    split at hstep
    · rename_i signal hsig
      simp only [Option.some.injEq, Prod.mk.injEq] at hstep
      obtain ⟨rfl, rfl⟩ := hstep
      refine ⟨tracked_congr ⟨rfl, rfl, rfl, rfl, rfl⟩ ht, Nat.le_refl _, fun sig h => ?_⟩
      cases h
      exact waitSwitch_allocated K job v r ht signal hsig
    · simp only [Option.some.injEq, Prod.mk.injEq] at hstep
      obtain ⟨rfl, rfl⟩ := hstep
      exact ⟨tracked_congr ⟨rfl, rfl, rfl, rfl, rfl⟩ ht, Nat.le_refl _,
        fun sig h => by cases h⟩
  | waitSelect signal =>
    simp only [stepGoroutine] at hstep
    split at hstep
    · simp only [Option.some.injEq, Prod.mk.injEq] at hstep
      obtain ⟨rfl, rfl⟩ := hstep
      exact ⟨ht, Nat.le_refl _, fun sig h => by cases h⟩
    · simp at hstep
  | signalSwitch job =>
    simp only [stepGoroutine, Option.map_eq_some', Prod.mk.injEq] at hstep
    obtain ⟨a, ha, rfl, rfl⟩ := hstep
    obtain ⟨u, hu, htr, hm⟩ := tracked_signalDependants K job v r ht
    rw [hu] at ha
    cases ha
    exact ⟨tracked_congr ⟨rfl, rfl, rfl, rfl, rfl⟩ htr, Nat.le_of_eq hm.symm,
      fun sig h => by cases h⟩

theorem step_tracked (K : Keys) (s t : System) (a : Action)
    (r : Signal → Option ShortChannelID) (ht : Tracked s.v r) (hw : WaitersAllocated s)
    (hstep : step K s a = some t) :
    Tracked t.v (recordStep K s a r) ∧ WaitersAllocated t := by
  cases a with
  | run i q =>
    simp only [step] at hstep
    split at hstep
    · simp at hstep
    · rename_i g hg
      simp only [Option.map_eq_some'] at hstep
      obtain ⟨⟨w, g2⟩, hr, rfl⟩ := hstep
      obtain ⟨h1, h2, h3⟩ := stepGoroutine_tracked K q s.v w g g2 r ht hr
      refine ⟨by simpa only [recordStep, hg] using h1, ?_⟩
      intro x hx sig hsig
      rcases List.mem_or_eq_of_mem_set hx with h | h
      · exact Nat.lt_of_lt_of_le (hw x h sig hsig) h2
      · rw [h] at hsig; exact h3 sig hsig
  | handoff i j =>
    simp only [step] at hstep
    split at hstep
    · split at hstep
      · simp only [Option.some.injEq] at hstep
        subst hstep
        refine ⟨ht, ?_⟩
        intro x hx sig hsig
        rcases List.mem_or_eq_of_mem_set hx with h | h
        · rcases List.mem_or_eq_of_mem_set h with h2 | h2
          · exact hw x h2 sig hsig
          · rw [h2] at hsig; cases hsig
        · rw [h] at hsig; cases hsig
      · simp at hstep
    · simp at hstep
  | closeQuit =>
    simp only [step] at hstep
    split at hstep
    · simp at hstep
    · simp only [Option.some.injEq] at hstep
      subst hstep
      exact ⟨tracked_congr ⟨rfl, rfl, rfl, rfl, rfl⟩ ht, hw⟩

theorem run_tracked (K : Keys) (acts : List Action) :
    ∀ (s t : System) (r : Signal → Option ShortChannelID), Tracked s.v r →
      WaitersAllocated s → run K s acts = some t →
      Tracked t.v (record K s acts r) ∧ WaitersAllocated t := by
  induction acts with
  | nil =>
    intro s t r ht hw hrun
    simp only [run, Option.some.injEq] at hrun
    subst hrun
    exact ⟨ht, hw⟩
  | cons a rest ih =>
    intro s t r ht hw hrun
    simp only [run, Option.bind_eq_some] at hrun
    obtain ⟨m, hm, hrest⟩ := hrun
    obtain ⟨h1, h2⟩ := step_tracked K s m a r ht hw hm
    have := ih m t (recordStep K s a r) h1 h2 hrest
    simpa only [record, hm] using this

theorem tracked_new (n : Nat) (q : Bool) :
    Tracked (NewValidationBarrier n q) (fun _ => none) := by
  simp [Tracked, NewValidationBarrier]

/-- C15 (no orphaned pending signal). Take any execution from a fresh
barrier, whatever the goroutines and their calls, and let `r` be the record
of the key each channel was made for. In the state reached: every channel
that has been made and is still open is stored in `chanAnnFinSignal` under
the key it was made for; a signal found in `chanEdgeDependancies` under `k`
was made for `k`, and a signal found in `nodeAnnDependancies` was made for
some key, and either it is the current `chanAnnFinSignal` entry of that key
or it is closed; and every goroutine that waits at the select of
`WaitForDependants` on an open channel waits on the current
`chanAnnFinSignal` entry of the key it was made for, which a
`SignalDependants` call of any channel announcement for that key closes. -/
theorem no_orphaned_pending_signal (K : Keys) (n : Nat) (q : Bool) (gs : List Goroutine)
    (acts : List Action) (s : System) (r : Signal → Option ShortChannelID)
    (hidle : ∀ g ∈ gs, g.pc = .idle)
    (hrun : run K ⟨NewValidationBarrier n q, gs⟩ acts = some s)
    (hr : r = record K ⟨NewValidationBarrier n q, gs⟩ acts (fun _ => none)) :
    (∀ sig, sig < s.v.made → s.v.closed sig = false →
      ∃ k, r sig = some k ∧ s.v.chanAnnFinSignal k = some sig) ∧
    (∀ k sig, s.v.chanEdgeDependancies k = some sig →
      r sig = some k ∧ (s.v.chanAnnFinSignal k = some sig ∨ s.v.closed sig = true)) ∧
    (∀ x sig, s.v.nodeAnnDependancies x = some sig →
      ∃ k, r sig = some k ∧ (s.v.chanAnnFinSignal k = some sig ∨ s.v.closed sig = true)) ∧
    (∀ g ∈ s.goroutines, ∀ sig, g.pc = .waitSelect sig → s.v.closed sig = false →
      ∃ k, r sig = some k ∧ s.v.chanAnnFinSignal k = some sig ∧
        ∀ job n1 n2, IsChanAnn K job k n1 n2 →
          ∃ u, SignalDependants K job s.v = some u ∧ u.closed sig = true) := by
  have hw0 : WaitersAllocated ⟨NewValidationBarrier n q, gs⟩ := by
    intro g hg sig hsig
    rw [hidle g hg] at hsig
    cases hsig
  obtain ⟨⟨hrec, ha, ho, he, hn⟩, hw⟩ :=
    run_tracked K acts _ s (fun _ => none) (tracked_new n q) hw0 hrun
  rw [← hr] at hrec ha he
  have pending : ∀ sig, sig < s.v.made → s.v.closed sig = false →
      ∃ k, r sig = some k ∧ s.v.chanAnnFinSignal k = some sig := by
    intro sig hlt hopen
    obtain ⟨k, hk⟩ := ho sig hlt hopen
    exact ⟨k, (ha k sig hk).1, hk⟩
  have settled : ∀ sig k, sig < s.v.made → r sig = some k →
      s.v.chanAnnFinSignal k = some sig ∨ s.v.closed sig = true := by
    intro sig k hlt hk
    cases hc : s.v.closed sig with
    | true => exact Or.inr rfl
    | false =>
      obtain ⟨k2, hk2, hk3⟩ := pending sig hlt hc
      rw [hk] at hk2
      cases hk2
      exact Or.inl hk3
  refine ⟨pending, ?_, ?_, ?_⟩
  · intro k sig hs
    obtain ⟨h1, h2⟩ := he k sig hs
    exact ⟨h1, settled sig k h2 h1⟩
  · intro x sig hs
    have hlt := hn x sig hs
    obtain ⟨k, hk⟩ := hrec sig hlt
    exact ⟨k, hk, settled sig k hlt hk⟩
  · intro g hg sig hpc hopen
    obtain ⟨k, hk1, hk2⟩ := pending sig (hw g hg sig hpc) hopen
    refine ⟨k, hk1, hk2, fun job n1 n2 hjob => ?_⟩
    obtain ⟨u, hu, hc, -⟩ := (signalDependants_chanAnn K s.v job k n1 n2 hjob).1 sig hk2 hopen
    exact ⟨u, hu, by simp [hc]⟩

/-- Witness of C15: in `fanSystem` after `fanWaiting` three goroutines wait on
channel 0, which is open; it was made for key 7, it is the entry of key 7 in
`chanAnnFinSignal`, and the release of the announcement of channel 7 closes
it. -/
theorem no_orphaned_pending_signal_witness :
    run idKeys fanSystem fanWaiting = some fanBlocked ∧
    fanBlocked.v.closed 0 = false ∧
    record idKeys fanSystem fanWaiting (fun _ => none) 0 = some 7 ∧
    fanBlocked.v.chanAnnFinSignal 7 = some 0 ∧
    (SignalDependants idKeys annA fanBlocked.v).map (fun u => u.closed 0) = some true := by
  have hrun : run idKeys fanSystem fanWaiting = some fanBlocked := by rfl
  have hrec : record idKeys fanSystem fanWaiting (fun _ => none) 0 = some 7 := by rfl
  have h := no_orphaned_pending_signal idKeys 4 false fanSystem.goroutines fanWaiting
    fanBlocked _ (by
      intro g hg
      simp only [fanSystem, List.mem_cons, List.mem_singleton, List.not_mem_nil,
        or_false] at hg
      rcases hg with rfl | rfl | rfl | rfl <;> rfl) hrun rfl
  obtain ⟨k, hk1, hk2, hk3⟩ := h.2.2.2
    ⟨[.SignalDependants (.ChannelUpdate 7), .CompleteJob], .waitSelect 0⟩
    (by simp [fanBlocked]) 0 rfl rfl
  have hk : k = 7 := by
    have e : some k = some 7 := hk1.symm.trans hrec
    exact Option.some.inj e
  subst hk
  obtain ⟨u, hu, hc⟩ := hk3 annA 1 2 (Or.inl rfl)
  exact ⟨hrun, rfl, hrec, hk2, by rw [hu]; simp [hc]⟩

end Routing
